import Mathlib

/-!
Verification of the NiTTY firmware core against its specification.

The C sources are shallowly embedded: machine integers become Nat (with
explicit masking where the code masks), in-place mutation becomes explicit
state passing over immutable structures, and fallible code returns Option
or a Bool paired with the new state.  Hardware register writes
(gpio_set, usart_send_blocking, rcc_periph_clock_enable, ...) are external
collaborators of the core and are modelled as recorded effects or as
no-ops on the model state, matching the scope of the specification.
-/

namespace NiTTY

/-! ## Ring buffer (shared/src/core/ring-buffer.c)

The C struct ring_buffer_t holds a byte array, a mask, and two indices.
Bytes are modelled as Nat (the code performs no arithmetic on the stored
byte).  Indices are uint32 in C; under the power-of-two well-formedness
invariant below every index stays below the capacity, so Nat arithmetic
with the same masking computes the same values.
-/

structure RingBuffer where
  buffer : List Nat
  mask : Nat
  read_index : Nat
  write_index : Nat
deriving Repr, DecidableEq

/-- coreRingBufferSetup: zeroes the indices and stores size - 1 as mask. -/
def coreRingBufferSetup (buffer : List Nat) (size : Nat) : RingBuffer :=
  { buffer := buffer, read_index := 0, write_index := 0, mask := size - 1 }

/-- coreRingBufferEmpty: the buffer is empty iff the indices coincide. -/
def coreRingBufferEmpty (rb : RingBuffer) : Bool :=
  rb.read_index == rb.write_index

/-- coreRingBufferWrite: fails (dropping the byte, state unchanged) when
advancing the write index would land on the read index; otherwise stores
the byte at the write index and advances it with the mask. -/
def coreRingBufferWrite (rb : RingBuffer) (byte : Nat) : Bool × RingBuffer :=
  let next_write_index := (rb.write_index + 1) &&& rb.mask
  if next_write_index == rb.read_index then
    (false, rb)
  else
    (true, { rb with buffer := rb.buffer.set rb.write_index byte,
                     write_index := next_write_index })

/-- coreRingBufferRead: fails when the indices coincide; otherwise returns
the byte at the read index and advances it with the mask. -/
def coreRingBufferRead (rb : RingBuffer) : Option Nat × RingBuffer :=
  if rb.read_index == rb.write_index then
    (none, rb)
  else
    (some (rb.buffer.getD rb.read_index 0),
     { rb with read_index := (rb.read_index + 1) &&& rb.mask })

/-- Well-formedness of a ring buffer set up with capacity 2 ^ k: the
storage has that length, the mask is capacity - 1, and both indices are
in range (they start at 0 and are only ever advanced under the mask). -/
structure RBWF (rb : RingBuffer) (k : Nat) : Prop where
  buf_len : rb.buffer.length = 2 ^ k
  mask_eq : rb.mask = 2 ^ k - 1
  r_lt : rb.read_index < 2 ^ k
  w_lt : rb.write_index < 2 ^ k

/-- Number of unread (pending) bytes held by the buffer. -/
def rbPending (rb : RingBuffer) : Nat :=
  if rb.read_index ≤ rb.write_index then rb.write_index - rb.read_index
  else rb.buffer.length + rb.write_index - rb.read_index

/-- The unread bytes in FIFO order, oldest first: the abstraction of a
ring buffer to the byte queue it represents. -/
def rbContents (rb : RingBuffer) : List Nat :=
  (List.range (rbPending rb)).map
    (fun i => rb.buffer.getD ((rb.read_index + i) % rb.buffer.length) 0)

/-- Queue operations: the interleaved sequences of claim C2. -/
inductive RBOp where
  | wr (b : Nat)
  | rd
deriving Repr, DecidableEq

/-- Observable result of one queue operation. -/
inductive RBOut where
  | wrote (ok : Bool)
  | got (b : Option Nat)
deriving Repr, DecidableEq

/-- Run a list of operations against the concrete ring buffer code. -/
def rbRun (rb : RingBuffer) : List RBOp → RingBuffer × List RBOut
  | [] => (rb, [])
  | RBOp.wr b :: ops =>
      let res := coreRingBufferWrite rb b
      let rest := rbRun res.2 ops
      (rest.1, RBOut.wrote res.1 :: rest.2)
  | RBOp.rd :: ops =>
      let res := coreRingBufferRead rb
      let rest := rbRun res.2 ops
      (rest.1, RBOut.got res.1 :: rest.2)

/-- The ideal bounded FIFO queue: a write fails exactly when capacity - 1
bytes are pending, a read returns the oldest pending byte. -/
def specRun (cap : Nat) (q : List Nat) : List RBOp → List Nat × List RBOut
  | [] => (q, [])
  | RBOp.wr b :: ops =>
      if q.length = cap - 1 then
        let rest := specRun cap q ops
        (rest.1, RBOut.wrote false :: rest.2)
      else
        let rest := specRun cap (q ++ [b]) ops
        (rest.1, RBOut.wrote true :: rest.2)
  | RBOp.rd :: ops =>
      match q with
      | [] =>
          let rest := specRun cap [] ops
          (rest.1, RBOut.got none :: rest.2)
      | b :: q' =>
          let rest := specRun cap q' ops
          (rest.1, RBOut.got (some b) :: rest.2)

/-! ## TokenVector (app/src/token.c)

The token vector is a growable array with explicit capacity tracking.
getTokenVector contains an unconditional infinite loop on out-of-range
indices: the loop body only prints and never breaks or returns, so the
call never returns control.  The loop is embedded with explicit fuel: one
recursive call per loop iteration, and the value none means the function
has not returned within the given number of iterations.
-/

/-- GROW_CAPACITY from local-memory.h: a floor of 8, then doubling. -/
def GROW_CAPACITY (cap : Nat) : Nat := if cap < 8 then 8 else cap * 2

/-- The while(1) loop of getTokenVector for an out-of-range index: each
iteration prints and loops again; the body contains no break or return,
so control falls out of the loop (the value some) under no fuel. -/
def getTokenVectorHang (fuel : Nat) : Option Unit :=
  match fuel with
  | 0 => none
  | fuel + 1 => getTokenVectorHang fuel

/-- getTokenVector from token.c with the out-of-range infinite loop run
on explicit fuel: some t means the call returned token t, none means it
was still inside the error loop after consuming all the fuel.  Control
reaching the end of the loop would continue to the array access, which
is what the inner match expresses. -/
def getTokenVectorFuel (tokens : List α) (used index fuel : Nat) : Option α :=
  if index ≥ used then
    match getTokenVectorHang fuel with
    | none => none
    | some _ => tokens.get? index
  else
    tokens.get? index

/-! ## Scanner (app/src/interpreter.c)

A command line is a NUL-terminated C string; it is modelled as a list of
characters with no interior NUL, and chAt returns the NUL sentinel past
the end, matching the C termination checks.  Tokens reference spans of
the line by start index and length, as in the C struct.
-/

/-- Token types of token.h.  The C enum TokenType (token.h lines 29-44)
stops at TOKEN_ERROR; the constructors ADC, UART and WRITE below are
referenced by interpreter.c and parser.c (TOKEN_ADC, TOKEN_UART,
TOKEN_WRITE) yet are absent from the enum in the sources.  Modelled from
the spec: the keyword set lists adc, uart and write as keywords, so the
three missing members are added here to give those call sites meaning. -/
inductive TokenType where
  | GPIO_INPUT
  | GPIO_OUTPUT
  | PORT_PIN
  | GPIO_SET
  | GPIO_READ
  | GPIO_RESET
  | GPIO_TOGGLE
  | GPIO_PULLUP
  | GPIO_PULLDOWN
  | GPIO_NORESISTOR
  | NUMBER
  | STRING
  | EOL
  | ERROR
  | ADC
  | UART
  | WRITE
deriving Repr, DecidableEq

/-- The NUL terminator of a C string. -/
def NULc : Char := Char.ofNat 0

/-- Reading the line at an index: past the end the NUL terminator is
seen, exactly as the C scanner sees it. -/
def chAt (s : List Char) (i : Nat) : Char := s.getD i NULc

/-- isDigit from interpreter.c. -/
def isDigitChar (c : Char) : Bool := decide ('0' ≤ c ∧ c ≤ '9')

/-- isAlpha from interpreter.c (letters and underscore). -/
def isAlphaChar (c : Char) : Bool :=
  decide (('a' ≤ c ∧ c ≤ 'z') ∨ ('A' ≤ c ∧ c ≤ 'Z') ∨ c = '_')

/-- isValidPortPinStartingChar: a letter in the port range, lowercase
a..e or uppercase A..E. -/
def isValidPortPinStartingChar (c : Char) : Bool :=
  decide (('a' ≤ c ∧ c ≤ 'e') ∨ ('A' ≤ c ∧ c ≤ 'E'))

/-- isValidPortPin from interpreter.c: after a valid port letter the
next character must be the digit 0 followed by a digit 0..9, or the
digit 1 followed by a digit 0..5 (PIN0, PIN9, PIN10 = the character 1,
PIN15 = the character 5 in token.h). -/
def isValidPortPin (s : List Char) (start : Nat) : TokenType :=
  if isValidPortPinStartingChar (chAt s start) then
    if chAt s (start + 1) = '0' then
      if '0' ≤ chAt s (start + 2) ∧ chAt s (start + 2) ≤ '9' then TokenType.PORT_PIN
      else TokenType.ERROR
    else if chAt s (start + 1) = '1' then
      if '0' ≤ chAt s (start + 2) ∧ chAt s (start + 2) ≤ '5' then TokenType.PORT_PIN
      else TokenType.ERROR
    else TokenType.ERROR
  else TokenType.ERROR

/-- memcmp of the line at index i against the given characters. -/
def sliceMatches (s : List Char) (i : Nat) : List Char → Bool
  | [] => true
  | c :: cs => chAt s i == c && sliceMatches s (i + 1) cs

/-- checkKeyword from interpreter.c: the token (from start to cur) is
the given keyword when its length is off + the length of rest and the
characters after the offset match rest; otherwise the token is
re-validated as a port-pin identifier. -/
def checkKeyword (s : List Char) (start cur off : Nat) (rest : List Char)
    (t : TokenType) : TokenType :=
  if cur - start = off + rest.length ∧ sliceMatches s (start + off) rest = true then t
  else isValidPortPin s start

/-- identifierType from interpreter.c: first-character dispatch into the
keyword table.  There is no case for the character u, so the keyword
uart always falls through to the port-pin check. -/
def identifierType (s : List Char) (start cur : Nat) : TokenType :=
  if chAt s start = 'a' then checkKeyword s start cur 1 ['d', 'c'] TokenType.ADC
  else if chAt s start = 'i' then
    checkKeyword s start cur 1 ['n', 'p', 'u', 't'] TokenType.GPIO_INPUT
  else if chAt s start = 'n' then
    checkKeyword s start cur 1 ['o', 'n', 'e'] TokenType.GPIO_NORESISTOR
  else if chAt s start = 'o' then
    checkKeyword s start cur 1 ['u', 't', 'p', 'u', 't'] TokenType.GPIO_OUTPUT
  else if chAt s start = 's' then
    checkKeyword s start cur 1 ['e', 't'] TokenType.GPIO_SET
  else if chAt s start = 'r' then
    if cur - start > 1 then
      if chAt s (start + 1) = 'e' then
        if cur - start > 2 then
          if chAt s (start + 2) = 'a' then
            checkKeyword s start cur 3 ['d'] TokenType.GPIO_READ
          else if chAt s (start + 2) = 's' then
            checkKeyword s start cur 3 ['e', 't'] TokenType.GPIO_RESET
          else isValidPortPin s start
        else isValidPortPin s start
      else isValidPortPin s start
    else isValidPortPin s start
  else if chAt s start = 'p' then
    if cur - start > 1 then
      if chAt s (start + 1) = 'u' then
        checkKeyword s start cur 2 ['p'] TokenType.GPIO_PULLUP
      else if chAt s (start + 1) = 'd' then
        checkKeyword s start cur 2 ['o', 'w', 'n'] TokenType.GPIO_PULLDOWN
      else isValidPortPin s start
    else isValidPortPin s start
  else if chAt s start = 't' then
    checkKeyword s start cur 1 ['o', 'g', 'g', 'l', 'e'] TokenType.GPIO_TOGGLE
  else if chAt s start = 'w' then
    checkKeyword s start cur 1 ['r', 'i', 't', 'e'] TokenType.WRITE
  else isValidPortPin s start

/-- A token: type plus the span of the line it covers. -/
structure Token where
  type : TokenType
  start : Nat
  length : Nat
deriving Repr, DecidableEq

/-- skipWhitespace from interpreter.c, walking the suffix of the line
that starts at the cursor (the NUL at the end of a C string stops every
one of these loops, which the empty suffix models). -/
def skipWsGo : List Char → Nat → Nat
  | [], i => i
  | c :: rest, i =>
    if c = ' ' ∨ c = '\r' ∨ c = '\t' ∨ c = '\n' then skipWsGo rest (i + 1) else i

def skipWs (s : List Char) (i : Nat) : Nat := skipWsGo (s.drop i) i

/-- The identifier loop: advance while the character is alphanumeric or
underscore. -/
def runEndGo : List Char → Nat → Nat
  | [], i => i
  | c :: rest, i =>
    if isAlphaChar c || isDigitChar c then runEndGo rest (i + 1) else i

def runEnd (s : List Char) (i : Nat) : Nat := runEndGo (s.drop i) i

/-- The number loop: advance while the character is a digit. -/
def numEndGo : List Char → Nat → Nat
  | [], i => i
  | c :: rest, i => if isDigitChar c then numEndGo rest (i + 1) else i

def numEnd (s : List Char) (i : Nat) : Nat := numEndGo (s.drop i) i

/-- The string loop: advance until the closing quote or the end of the
line; returns the index of the closing quote, or the line length when
the string is unterminated. -/
def stringEndGo : List Char → Nat → Nat
  | [], i => i
  | c :: rest, i => if c = '"' then i else stringEndGo rest (i + 1)

def stringEnd (s : List Char) (i : Nat) : Nat := stringEndGo (s.drop i) i

/-- One iteration of the scanning loop of interpret, at a position that
is not end-of-line: produce the token starting there together with the
position after it. -/
def scanOne (s : List Char) (j : Nat) : Token × Nat :=
  let c := chAt s j
  if isAlphaChar c then
    let e := runEnd s (j + 1)
    ({ type := identifierType s j e, start := j, length := e - j }, e)
  else if isDigitChar c then
    let e := numEnd s (j + 1)
    ({ type := TokenType.NUMBER, start := j, length := e - j }, e)
  else if c = '"' then
    let e := stringEnd s (j + 1)
    if e < s.length then
      ({ type := TokenType.STRING, start := j, length := e + 1 - j }, e + 1)
    else
      ({ type := TokenType.ERROR, start := j, length := e - j }, e)
  else ({ type := TokenType.ERROR, start := j, length := 1 }, j + 1)

/-- The scanning loop of interpret: skip whitespace, emit the token at
the cursor, stop right after the first error token, and emit the
end-of-line token when the line is exhausted.  The loop advances by at
least one character per token, so it runs for at most length + 1
iterations; the fuel argument counts them explicitly and scanLine below
supplies enough for the loop to run to completion. -/
def scanLineGo (s : List Char) : Nat → Nat → List Token
  | 0, _ => []
  | fuel + 1, i =>
    let j := skipWs s i
    if j < s.length then
      let tn := scanOne s j
      if tn.1.type = TokenType.ERROR then [tn.1]
      else tn.1 :: scanLineGo s fuel tn.2
    else [{ type := TokenType.EOL, start := j, length := 0 }]

def scanLine (s : List Char) (i : Nat) : List Token :=
  scanLineGo s (s.length + 1 - i) i

/-! ## Hardware constants (libopencm3 headers, fixed configuration)

Register addresses, pin masks and enum values are fixed compiled-in
configuration for the STM32F411RE reference target.
-/

def GPIOA : Nat := 0x40020000
def GPIOB : Nat := 0x40020400
def GPIOC : Nat := 0x40020800
def PORT_SIZE : Nat := 0x400
def USART1 : Nat := 0x40011000
def USART6 : Nat := 0x40011400
def ADC1 : Nat := 0x40012000
def NVIC_USART1_IRQ : Nat := 37
def NVIC_USART6_IRQ : Nat := 71
def GPIO_PUPD_NONE : Nat := 0
def GPIO_PUPD_PULLUP : Nat := 1
def GPIO_PUPD_PULLDOWN : Nat := 2
def GPIO_MODE_INPUT : Nat := 0
def GPIO_MODE_OUTPUT : Nat := 1
def GPIO_MODE_AF : Nat := 2
def GPIO_MODE_ANALOG : Nat := 3
def GPIO_AF7 : Nat := 7
def GPIO_AF8 : Nat := 8
def ADC_SMPR_SMP_3CYC : Nat := 0
def ADC_OUT_OF_BOUNDS : Nat := 18
def UART_MAX_READ : Nat := 32

/-- The rcc_periph_clken clock identifiers the firmware uses, plus
RCC_GPIOK which parser.h aliases as CLOCK_OUT_OF_BOUNDS. -/
inductive Clk where
  | RCC_GPIOA
  | RCC_GPIOB
  | RCC_GPIOC
  | RCC_GPIOD
  | RCC_GPIOE
  | RCC_ADC1
  | RCC_USART1
  | RCC_USART6
  | RCC_GPIOK
deriving Repr, DecidableEq

/-- getClockFromPort from parser.c. -/
def getClockFromPort (port : Nat) : Clk :=
  if port = GPIOA then Clk.RCC_GPIOA
  else if port = GPIOA + PORT_SIZE then Clk.RCC_GPIOB
  else if port = GPIOA + 2 * PORT_SIZE then Clk.RCC_GPIOC
  else if port = GPIOA + 3 * PORT_SIZE then Clk.RCC_GPIOD
  else if port = GPIOA + 4 * PORT_SIZE then Clk.RCC_GPIOE
  else Clk.RCC_GPIOK

/-! ## Clock controller (app/src/clocks-control.c) -/

/-- ClockController: a clock identifier and its enabled flag. -/
structure ClockController where
  clock : Clk
  clock_enabled : Bool
deriving Repr, DecidableEq

/-- create_clock: disabled by default. -/
def create_clock (clock_rcc : Clk) : ClockController :=
  { clock := clock_rcc, clock_enabled := false }

/-- enableClock: sets the flag (the rcc register write is a hardware
side effect outside the model). -/
def enableClock (cc : ClockController) : ClockController :=
  if cc.clock_enabled then cc else { cc with clock_enabled := true }

/-- disableClock: clears the flag. -/
def disableClock (cc : ClockController) : ClockController :=
  if cc.clock_enabled then { cc with clock_enabled := false } else cc

/-! ## Peripheral controllers (app/src/peripheral-controller.c and the
gpio-control.c, adc-control.c, uart-control.c constructors) -/

/-- GPIOPinController from gpio-control.h. -/
structure GPIOPinController where
  port : Nat
  pin : Nat
  clock : Clk
  mode : Nat
  af_mode : Nat
  pupd_resistor : Nat
deriving Repr, DecidableEq

/-- createGPIOPin from gpio-control.c. -/
def createGPIOPin (port pin : Nat) (clock : Clk) (mode af_mode pupd_resistor : Nat) :
    GPIOPinController :=
  { port := port, pin := pin, clock := clock, mode := mode,
    af_mode := af_mode, pupd_resistor := pupd_resistor }

/-- ADCPinController from adc-control.h. -/
structure ADCPinController where
  port : Nat
  pin : Nat
  clock : Clk
  adc_clock : Clk
  sample_time : Nat
  mode : Nat
  adc_port : Nat
  adc_channel : Nat
deriving Repr, DecidableEq

/-- createADCPin from adc-control.c. -/
def createADCPin (port pin : Nat) (clock adc_clock : Clk)
    (sample_time mode adc_port adc_channel : Nat) : ADCPinController :=
  { port := port, pin := pin, clock := clock, adc_clock := adc_clock,
    sample_time := sample_time, mode := mode, adc_port := adc_port,
    adc_channel := adc_channel }

/-- UARTController from uart-control.h.  The receive ring buffer is set
up over a fresh 128-byte store, as createUARTPeripheral does. -/
structure UARTController where
  uart_clock : Clk
  baudrate : Nat
  RX : GPIOPinController
  TX : GPIOPinController
  handle : Nat
  rb : RingBuffer
  nvic_entry : Nat
deriving Repr, DecidableEq

/-- createUARTPeripheral from uart-control.c (the update of the global
currently_active_uart is a copy the board model does not need). -/
def createUARTPeripheral (uart_handle : Nat) (uart_clock : Clk) (baudrate : Nat)
    (rx_port tx_port rx_pin tx_pin : Nat) (rx_clock tx_clock : Clk)
    (rx_af_mode tx_af_mode : Nat) (nvic_entry : Nat) : UARTController :=
  { uart_clock := uart_clock, baudrate := baudrate,
    RX := createGPIOPin rx_port rx_pin rx_clock GPIO_MODE_AF rx_af_mode GPIO_PUPD_NONE,
    TX := createGPIOPin tx_port tx_pin tx_clock GPIO_MODE_AF tx_af_mode GPIO_PUPD_NONE,
    handle := uart_handle,
    rb := coreRingBufferSetup (List.replicate 128 0) 128,
    nvic_entry := nvic_entry }

/-- PeripheralType from peripheral-controller.h. -/
inductive PeripheralType where
  | TYPE_GPIO_INPUT
  | TYPE_GPIO_OUTPUT
  | TYPE_UART
  | TYPE_ADC
  | TYPE_OTHER
  | TYPE_NONE
deriving Repr, DecidableEq

/-- The union in PeripheralController, as a sum. -/
inductive PeriphData where
  | gpio (g : GPIOPinController)
  | adc (a : ADCPinController)
  | uart (u : UARTController)
deriving Repr, DecidableEq

/-- PeripheralController: tag, payload and enabled flag.  The C struct
stores enable and disable function pointers; they are installed only by
the three createStandard constructors, each fixing the pair matching
the tag, so dispatch through the pointers is dispatch on the tag. -/
structure PeripheralController where
  type : PeripheralType
  peripheral : PeriphData
  status : Bool
deriving Repr, DecidableEq

/-- Union read accesses, defined only when the tag matches (the C code
accesses a member only under a matching type check; the defaults below
are never reached on those paths). -/
def PeripheralController.gpio (p : PeripheralController) : GPIOPinController :=
  match p.peripheral with
  | PeriphData.gpio g => g
  | _ => createGPIOPin 0 0 Clk.RCC_GPIOK 0 0 0

def PeripheralController.adc (p : PeripheralController) : ADCPinController :=
  match p.peripheral with
  | PeriphData.adc a => a
  | _ => createADCPin 0 0 Clk.RCC_GPIOK Clk.RCC_GPIOK 0 0 0 0

def PeripheralController.uart (p : PeripheralController) : UARTController :=
  match p.peripheral with
  | PeriphData.uart u => u
  | _ => createUARTPeripheral 0 Clk.RCC_GPIOK 0 0 0 0 0 Clk.RCC_GPIOK Clk.RCC_GPIOK 0 0 0

/-- The installed enable pointers all program hardware and set status
to true (enableStandardGPIO, enableADCPin, enableUART). -/
def enablePeripheral (p : PeripheralController) : PeripheralController :=
  { p with status := true }

/-- The installed disable pointers: disableStandardGPIO and disableUART
clear status; disableADCPin sets status to true, as written in
peripheral-controller.c line 90 (it assigns true, not false). -/
def disablePeripheral (p : PeripheralController) : PeripheralController :=
  match p.type with
  | PeripheralType.TYPE_ADC => { p with status := true }
  | _ => { p with status := false }

/-- createStandardGPIO from peripheral-controller.c. -/
def createStandardGPIO (port pin : Nat) (clock : Clk) (input_output : PeripheralType)
    (pupd : Nat) : PeripheralController :=
  let mode := if input_output = PeripheralType.TYPE_GPIO_INPUT then GPIO_MODE_INPUT
              else GPIO_MODE_OUTPUT
  { type := input_output,
    peripheral := PeriphData.gpio (createGPIOPin port pin clock mode 0 pupd),
    status := false }

/-- createStandardADCPin from peripheral-controller.c. -/
def createStandardADCPin (port pin : Nat) (clock adc_clock : Clk)
    (sample_time adc_port adc_channel : Nat) : PeripheralController :=
  { type := PeripheralType.TYPE_ADC,
    peripheral := PeriphData.adc
      (createADCPin port pin clock adc_clock sample_time GPIO_MODE_ANALOG adc_port adc_channel),
    status := false }

/-- createStandardUARTUSART from peripheral-controller.c. -/
def createStandardUARTUSART (uart_handle : Nat) (uart_clock : Clk) (baudrate : Nat)
    (rx_port tx_port rx_pin tx_pin : Nat) (rx_clock tx_clock : Clk)
    (rx_af_mode tx_af_mode nvic_entry : Nat) : PeripheralController :=
  { type := PeripheralType.TYPE_UART,
    peripheral := PeriphData.uart
      (createUARTPeripheral uart_handle uart_clock baudrate rx_port tx_port rx_pin tx_pin
        rx_clock tx_clock rx_af_mode tx_af_mode nvic_entry),
    status := false }

/-! ## Board controller (app/src/board-control.c)

The two growable arrays are lists paired with explicit capacities; the
element count is the list length.  realloc-based growth preserves the
contents, so GROW_ARRAY is the identity on the stored prefix.
-/

structure BoardController where
  peripherals : List PeripheralController
  clocks : List ClockController
  clocks_size : Nat
  peripherals_size : Nat
deriving Repr, DecidableEq

/-- initBoard: both capacities start at 4, both tables empty. -/
def initBoard : BoardController :=
  { peripherals := [], clocks := [], clocks_size := 4, peripherals_size := 4 }

/-- In-place update of one element, as the C loops do through pointers.
Out-of-range indices never occur at the embedded call sites. -/
def listModify (l : List α) (i : Nat) (f : α → α) : List α :=
  match l.get? i with
  | none => l
  | some x => l.set i (f x)

/-- A placeholder element for the (never reached) out-of-range reads. -/
def defaultPC : PeripheralController :=
  createStandardGPIO 0 0 Clk.RCC_GPIOK PeripheralType.TYPE_GPIO_INPUT 0

/-- growClocks: double the capacity when full, append at the tail. -/
def growClocks (bc : BoardController) (clock : Clk) : BoardController :=
  let bc1 :=
    if bc.clocks.length = bc.clocks_size then
      { bc with clocks_size := GROW_CAPACITY bc.clocks_size }
    else bc
  { bc1 with clocks := bc1.clocks ++ [create_clock clock] }

/-- growPeripherals: double the capacity when full, append at the tail. -/
def growPeripherals (bc : BoardController) (periph : PeripheralController) : BoardController :=
  let bc1 :=
    if bc.peripherals.length = bc.peripherals_size then
      { bc with peripherals_size := GROW_CAPACITY bc.peripherals_size }
    else bc
  { bc1 with peripherals := bc1.peripherals ++ [periph] }

/-- clockExistsReturn from board-control.h. -/
structure clockExistsReturn where
  found : Bool
  status : Bool
  index : Nat
deriving Repr, DecidableEq

def clockExistsAux (clocks : List ClockController) (clock : Clk) (i : Nat) :
    clockExistsReturn :=
  match clocks with
  | [] => { found := false, status := false, index := 0 }
  | c :: rest =>
    if c.clock = clock ∧ c.clock_enabled then
      { found := true, status := true, index := i }
    else if c.clock = clock ∧ ¬c.clock_enabled then
      { found := true, status := false, index := i }
    else clockExistsAux rest clock (i + 1)

/-- clockExists: linear scan reporting found / enabled / index (the C
field name for found is exists). -/
def clockExists (bc : BoardController) (clock : Clk) : clockExistsReturn :=
  clockExistsAux bc.clocks clock 0

/-- enableClock applied to the clock table entry at an index. -/
def enableClockAt (bc : BoardController) (i : Nat) : BoardController :=
  { bc with clocks := listModify bc.clocks i enableClock }

/-- disableClockWithEnum: disable the first table entry for the id. -/
def disableClockWithEnumAux (clocks : List ClockController) (clock : Clk) :
    List ClockController :=
  match clocks with
  | [] => []
  | c :: rest =>
    if c.clock = clock then disableClock c :: rest
    else c :: disableClockWithEnumAux rest clock

def disableClockWithEnum (bc : BoardController) (clock : Clk) : BoardController :=
  { bc with clocks := disableClockWithEnumAux bc.clocks clock }

/-- adcExists: how many enabled ADC peripherals remain. -/
def adcExists (bc : BoardController) : Nat :=
  bc.peripherals.countP (fun p => p.type == PeripheralType.TYPE_ADC && p.status)

/-- uartExists: the first enabled UART peripheral, if any. -/
def uartExists (bc : BoardController) : Option UARTController :=
  (bc.peripherals.find? (fun p => p.type == PeripheralType.TYPE_UART && p.status)).map
    (fun p => p.uart)

/-- Enable the just-appended peripheral (the C call through the enable
pointer on index count - 1). -/
def enablePeriphLast (bc : BoardController) : BoardController :=
  { bc with peripherals :=
      listModify bc.peripherals (bc.peripherals.length - 1) enablePeripheral }

/-- createDigitalPin: the three-way clock activation protocol on the
snapshot of clockExists, then construct, append and enable. -/
def createDigitalPin (bc : BoardController) (port pin : Nat) (clock : Clk)
    (input_output : PeripheralType) (pupd : Nat) : BoardController :=
  let clock_exists := clockExists bc clock
  let bc1 :=
    if !clock_exists.found then
      let g := growClocks bc clock
      enableClockAt g (g.clocks.length - 1)
    else bc
  let bc2 :=
    if clock_exists.found && !clock_exists.status then enableClockAt bc1 clock_exists.index
    else bc1
  let pc := createStandardGPIO port pin clock input_output pupd
  enablePeriphLast (growPeripherals bc2 pc)

/-- createAnalogPin: ensure the GPIO-side clock, then (with a fresh
lookup) the ADC converter clock, then construct, append and enable. -/
def createAnalogPin (bc : BoardController) (port pin : Nat) (clock : Clk)
    (sample_time adc_port adc_channel : Nat) : BoardController :=
  let clock_exists := clockExists bc clock
  let bc1 :=
    if !clock_exists.found then
      let g := growClocks bc clock
      enableClockAt g (g.clocks.length - 1)
    else bc
  let bc2 :=
    if clock_exists.found && !clock_exists.status then enableClockAt bc1 clock_exists.index
    else bc1
  let adc_clock_exists := clockExists bc2 Clk.RCC_ADC1
  let bc3 :=
    if !adc_clock_exists.found then
      let g := growClocks bc2 Clk.RCC_ADC1
      enableClockAt g (g.clocks.length - 1)
    else bc2
  let bc4 :=
    if adc_clock_exists.found && !adc_clock_exists.status then
      enableClockAt bc3 adc_clock_exists.index
    else bc3
  let pc := createStandardADCPin port pin clock Clk.RCC_ADC1 sample_time adc_port adc_channel
  enablePeriphLast (growPeripherals bc4 pc)

/-- createUART: all three clock lookups are taken up front on the
original table (exactly as board-control.c lines 292-294 do), then the
three pairs of conditional blocks run in order against those snapshots. -/
def createUART (bc : BoardController) (handle : Nat) (uart_clock : Clk) (baudrate : Nat)
    (rx_port tx_port rx_pin tx_pin : Nat) (rx_clock tx_clock : Clk)
    (rx_af_mode tx_af_mode nvic_entry : Nat) : BoardController :=
  let uart_clock_exists := clockExists bc uart_clock
  let rx_clock_exists := clockExists bc rx_clock
  let tx_clock_exists := clockExists bc tx_clock
  let bc1 :=
    if !uart_clock_exists.found then
      let g := growClocks bc uart_clock
      enableClockAt g (g.clocks.length - 1)
    else bc
  let bc2 :=
    if uart_clock_exists.found && !uart_clock_exists.status then
      enableClockAt bc1 uart_clock_exists.index
    else bc1
  let bc3 :=
    if !rx_clock_exists.found then
      let g := growClocks bc2 rx_clock
      enableClockAt g (g.clocks.length - 1)
    else bc2
  let bc4 :=
    if rx_clock_exists.found && !rx_clock_exists.status then
      enableClockAt bc3 rx_clock_exists.index
    else bc3
  let bc5 :=
    if !tx_clock_exists.found then
      let g := growClocks bc4 tx_clock
      enableClockAt g (g.clocks.length - 1)
    else bc4
  let bc6 :=
    if tx_clock_exists.found && !tx_clock_exists.status then
      enableClockAt bc5 tx_clock_exists.index
    else bc5
  let pc := createStandardUARTUSART handle uart_clock baudrate rx_port tx_port rx_pin tx_pin
    rx_clock tx_clock rx_af_mode tx_af_mode nvic_entry
  enablePeriphLast (growPeripherals bc6 pc)

/-- pinExists: scan enabled peripherals; a UART matches on either its
RX or TX location (both compared by port and pin here). -/
def pinExistsAux (ps : List PeripheralController) (port pin : Nat) : PeripheralType :=
  match ps with
  | [] => PeripheralType.TYPE_NONE
  | p :: rest =>
    if !p.status then pinExistsAux rest port pin
    else if (p.type = PeripheralType.TYPE_GPIO_INPUT ∨
             p.type = PeripheralType.TYPE_GPIO_OUTPUT) ∧
            p.gpio.port = port ∧ p.gpio.pin = pin then p.type
    else if p.type = PeripheralType.TYPE_ADC ∧ p.adc.port = port ∧ p.adc.pin = pin then
      p.type
    else if p.type = PeripheralType.TYPE_UART ∧
            ((p.uart.RX.port = port ∧ p.uart.RX.pin = pin) ∨
             (p.uart.TX.port = port ∧ p.uart.TX.pin = pin)) then p.type
    else pinExistsAux rest port pin

def pinExists (bc : BoardController) (port pin : Nat) : PeripheralType :=
  pinExistsAux bc.peripherals port pin

/-- mutateDigitalPin: find the first digital entry at the location (the
loop has no status check), no-op when the role already matches, else
disable, rebuild in place reusing the stored clock, and enable. -/
def mutateDigitalPinAux (ps : List PeripheralController) (port pin : Nat)
    (new_type : PeripheralType) (new_pupd : Nat) : List PeripheralController :=
  match ps with
  | [] => []
  | p :: rest =>
    if (p.type = PeripheralType.TYPE_GPIO_INPUT ∨
        p.type = PeripheralType.TYPE_GPIO_OUTPUT) ∧
       p.gpio.port = port ∧ p.gpio.pin = pin then
      if p.type = new_type then p :: rest
      else
        let pdis := disablePeripheral p
        enablePeripheral ( createStandardGPIO port pin pdis.gpio.clock new_type new_pupd) :: rest
    else p :: mutateDigitalPinAux rest port pin new_type new_pupd

def mutateDigitalPin (bc : BoardController) (port pin : Nat) (new_type : PeripheralType)
    (new_pupd : Nat) : BoardController :=
  { bc with peripherals := mutateDigitalPinAux bc.peripherals port pin new_type new_pupd }

/-- mutateADCToDigital: disable the ADC entry in place, release the
converter clock when no enabled ADC remains on the whole (updated)
table, then rebuild the entry as a digital pin and enable it. -/
def mutateADCToDigital (bc : BoardController) (port pin : Nat) (clock : Clk)
    (input_output : PeripheralType) (pupd : Nat) : BoardController :=
  match bc.peripherals.findIdx? (fun p =>
      p.type == PeripheralType.TYPE_ADC && p.adc.port == port && p.adc.pin == pin) with
  | none => bc
  | some i =>
    let pold := bc.peripherals.getD i defaultPC
    let bc1 := { bc with peripherals := listModify bc.peripherals i disablePeripheral }
    let bc2 := if adcExists bc1 = 0 then disableClockWithEnum bc1 pold.adc.adc_clock else bc1
    { bc2 with peripherals := (listModify bc2.peripherals i
        (fun _ => enablePeripheral ( createStandardGPIO port pin clock input_output pupd))) }

/-- mutateDigitalToADC: disable the digital entry in place, ensure the
converter clock with the three-way protocol, rebuild as ADC, enable. -/
def mutateDigitalToADC (bc : BoardController) (port pin : Nat) (clock : Clk)
    (sample_time adc_port adc_channel : Nat) : BoardController :=
  match bc.peripherals.findIdx? (fun p =>
      (p.type == PeripheralType.TYPE_GPIO_INPUT || p.type == PeripheralType.TYPE_GPIO_OUTPUT)
        && p.gpio.port == port && p.gpio.pin == pin) with
  | none => bc
  | some i =>
    let bc1 := { bc with peripherals := listModify bc.peripherals i disablePeripheral }
    let adc_clock_exists := clockExists bc1 Clk.RCC_ADC1
    let bc2 :=
      if !adc_clock_exists.found then
        let g := growClocks bc1 Clk.RCC_ADC1
        enableClockAt g (g.clocks.length - 1)
      else bc1
    let bc3 :=
      if adc_clock_exists.found && !adc_clock_exists.status then
        enableClockAt bc2 adc_clock_exists.index
      else bc2
    { bc3 with peripherals := (listModify bc3.peripherals i
        (fun _ => enablePeripheral (createStandardADCPin port pin clock Clk.RCC_ADC1
          sample_time adc_port adc_channel))) }

/-- The matching condition of the killPeripheralOrPin loop.  For a UART
the code compares the ports but only tests the pins for being nonzero:
board-control.c lines 501-504 read RX.pin (and TX.pin) bare instead of
comparing them with the argument. -/
def killMatches (port pin : Nat) (p : PeripheralController) : Bool :=
  p.status &&
    ((p.type == PeripheralType.TYPE_ADC && p.adc.port == port && p.adc.pin == pin)
      || ((p.type == PeripheralType.TYPE_GPIO_INPUT
            || p.type == PeripheralType.TYPE_GPIO_OUTPUT)
            && p.gpio.port == port && p.gpio.pin == pin)
      || (p.type == PeripheralType.TYPE_UART
            && ((p.uart.RX.port == port && p.uart.RX.pin != 0)
                || (p.uart.TX.port == port && p.uart.TX.pin != 0))))

/-- killPeripheralOrPin: disable the first enabled matching peripheral;
for an ADC additionally release the converter clock when unused, for a
UART unconditionally disable its peripheral clock. -/
def killPeripheralOrPin (bc : BoardController) (port pin : Nat) : BoardController :=
  match bc.peripherals.findIdx? (killMatches port pin) with
  | none => bc
  | some i =>
    let p := bc.peripherals.getD i defaultPC
    let bc1 := { bc with peripherals := listModify bc.peripherals i disablePeripheral }
    if p.type == PeripheralType.TYPE_ADC then
      if adcExists bc1 = 0 then disableClockWithEnum bc1 p.adc.adc_clock else bc1
    else if p.type == PeripheralType.TYPE_UART then
      disableClockWithEnum bc1 p.uart.uart_clock
    else bc1

/-- GPIOAction from gpio-control.h. -/
inductive GPIOAction where
  | GPIO_READ
  | GPIO_SET
  | GPIO_CLEAR
  | GPIO_TOGGLE
deriving Repr, DecidableEq

/-- Hardware register effects issued by actionDigitalPin; what the
out-of-scope libopencm3 primitives would receive.  errMsg records the
operator-facing error printf on the unreachable defaults. -/
inductive HwEff where
  | gpioSet (port pin : Nat)
  | gpioClear (port pin : Nat)
  | gpioToggle (port pin : Nat)
  | errMsg
deriving Repr, DecidableEq

/-- The live hardware, an external collaborator: input pin levels and
the sample the converter returns. -/
structure HwModel where
  gpioLevel : Nat → Nat → Bool
  adcSample : Nat

/-- actionDigitalPin: first digital entry at the location (no status
check); Read is acted on only for the input role, Set, Clear and Toggle
only for the output role.  Any other action on the input role silently
returns 0; Read on the output role prints an error and returns 0; the
(unreachable) non-digital arm prints and continues the loop. -/
def actionDigitalPinAux (hw : HwModel) (ps : List PeripheralController) (port pin : Nat)
    (action : GPIOAction) : Nat × List HwEff :=
  match ps with
  | [] => (0, [])
  | p :: rest =>
    if (p.type = PeripheralType.TYPE_GPIO_INPUT ∨
        p.type = PeripheralType.TYPE_GPIO_OUTPUT) ∧
       p.gpio.port = port ∧ p.gpio.pin = pin then
      if p.type = PeripheralType.TYPE_GPIO_INPUT then
        if action = GPIOAction.GPIO_READ then
          (if hw.gpioLevel port pin then 1 else 0, [])
        else (0, [])
      else if p.type = PeripheralType.TYPE_GPIO_OUTPUT then
        if action = GPIOAction.GPIO_SET then (0, [HwEff.gpioSet port pin])
        else if action = GPIOAction.GPIO_CLEAR then (0, [HwEff.gpioClear port pin])
        else if action = GPIOAction.GPIO_TOGGLE then (0, [HwEff.gpioToggle port pin])
        else (0, [HwEff.errMsg])
      else
        let r := actionDigitalPinAux hw rest port pin action
        (r.1, HwEff.errMsg :: r.2)
    else actionDigitalPinAux hw rest port pin action

def actionDigitalPin (hw : HwModel) (bc : BoardController) (port pin : Nat)
    (action : GPIOAction) : Nat × List HwEff :=
  actionDigitalPinAux hw bc.peripherals port pin action

/-- actionAnalogPin: first ADC entry at the location triggers a
conversion and returns the raw sample; none found prints an error and
returns 0. -/
def actionAnalogPinAux (hw : HwModel) (ps : List PeripheralController) (port pin : Nat) :
    Nat × List HwEff :=
  match ps with
  | [] => (0, [HwEff.errMsg])
  | p :: rest =>
    if p.type = PeripheralType.TYPE_ADC ∧ p.adc.port = port ∧ p.adc.pin = pin then
      (hw.adcSample, [])
    else actionAnalogPinAux hw rest port pin

def actionAnalogPin (hw : HwModel) (bc : BoardController) (port pin : Nat) :
    Nat × List HwEff :=
  actionAnalogPinAux hw bc.peripherals port pin

/-- currentUartDataAvailable from uart-control.c (by-value argument). -/
def currentUartDataAvailable (u : UARTController) : Bool :=
  !(coreRingBufferEmpty u.rb)

/-- currentUartReadByte from uart-control.c: reads one byte out of its
by-value copy of the controller, so the stored indices never advance. -/
def currentUartReadByte (u : UARTController) : Nat :=
  ((coreRingBufferRead u.rb).1).getD 0

/-- readUARTPort: drains up to len bytes from the first enabled UART.
The C helpers receive the controller by value, so every loop iteration
re-reads the same byte and the availability test never changes; when
data is pending the loop therefore runs until count = len. -/
def readUARTPort (bc : BoardController) (len : Nat) : Nat × List Nat :=
  match uartExists bc with
  | none => (0, [])
  | some u =>
    if currentUartDataAvailable u then
      (len, List.replicate len (currentUartReadByte u))
    else (0, [])

/-- writeUARTPort: blocking transmit of len bytes on the first enabled
UART (a pure hardware effect); reports len, or 0 when no UART exists. -/
def writeUARTPort (bc : BoardController) (len : Nat) : Nat :=
  match uartExists bc with
  | none => 0
  | some _ => len

/-! ## Parser / executor (app/src/parser.c) -/

/-- OpCode from parser.h. -/
inductive OpCode where
  | OP_SET
  | OP_RESET
  | OP_TOGGLE
  | OP_READ
  | OP_MAKE_INPUT
  | OP_MAKE_OUTPUT
deriving Repr, DecidableEq

/-- strtoul base 10 on the tail of the line starting at index i: value
of the maximal digit run there (0 when the first character is not a
digit, as strtoul returns). -/
def digitRunVal : List Char → Nat → Nat
  | [], acc => acc
  | c :: rest, acc =>
    if isDigitChar c then digitRunVal rest (acc * 10 + (c.toNat - '0'.toNat)) else acc

def strtoul10 (s : List Char) (i : Nat) : Nat := digitRunVal (s.drop i) 0

/-- parsePortPin from parser.c.  The C loop walks the port characters
A, B, C, D, E and then jumps (JUMP_TO_LOWERCASE) to a, b, c, d, e with
the subtractor moved to the lowercase base; it adds
PORT_SIZE * (letter - base) to the GPIOA base on the first match, which
is the closed form below.  The pin digits after the letter go through
strtoul and the defensive bound pin_val <= 15; the pin mask is
1 <<< pin_val.  The result is none when either half fails. -/
def parsePortPin (s : List Char) (tok : Token) : Option (Nat × Nat) :=
  let c0 := chAt s tok.start
  let port : Option Nat :=
    if 'A' ≤ c0 ∧ c0 ≤ 'E' then some (GPIOA + PORT_SIZE * (c0.toNat - 'A'.toNat))
    else if 'a' ≤ c0 ∧ c0 ≤ 'e' then some (GPIOA + PORT_SIZE * (c0.toNat - 'a'.toNat))
    else none
  let pin_val := strtoul10 s (tok.start + 1)
  match port with
  | none => none
  | some p => if pin_val ≤ 15 then some (p, 2 ^ pin_val) else none

/-- getADCBase from parser.c. -/
def getADCBase : Nat := ADC1

/-- adcPinMappings from parser.h: the fourteen ADC-capable pins. -/
def adcPinMappings : List (Nat × Nat × Nat) :=
  [(GPIOA, 2 ^ 0, 0), (GPIOA, 2 ^ 1, 1), (GPIOA, 2 ^ 4, 4), (GPIOA, 2 ^ 5, 5),
   (GPIOA, 2 ^ 6, 6), (GPIOA, 2 ^ 7, 7), (GPIOB, 2 ^ 0, 8), (GPIOB, 2 ^ 1, 9),
   (GPIOC, 2 ^ 0, 10), (GPIOC, 2 ^ 1, 11), (GPIOC, 2 ^ 2, 12), (GPIOC, 2 ^ 3, 13),
   (GPIOC, 2 ^ 4, 14), (GPIOC, 2 ^ 5, 15)]

/-- getADCChannelFromPortPin: table lookup, ADC_OUT_OF_BOUNDS when the
pin is not ADC-capable. -/
def getADCChannelFromPortPin (port pin : Nat) : Nat :=
  match adcPinMappings.find? (fun m => m.1 == port && m.2.1 == pin) with
  | some m => m.2.2
  | none => ADC_OUT_OF_BOUNDS

/-- UARTValidPin from parser.h. -/
structure UARTValidPin where
  isValid : Bool
  isTx : Bool
  isRx : Bool
  handle : Nat
  af_mode : Nat
deriving Repr, DecidableEq

def UART1_TX_PIN : UARTValidPin :=
  { isValid := true, handle := USART1, isTx := true, isRx := false, af_mode := GPIO_AF7 }

def UART1_RX_PIN : UARTValidPin :=
  { isValid := true, handle := USART1, isTx := false, isRx := true, af_mode := GPIO_AF7 }

def UART6_TX_PIN : UARTValidPin :=
  { isValid := true, handle := USART6, isTx := true, isRx := false, af_mode := GPIO_AF8 }

def UART6_RX_PIN : UARTValidPin :=
  { isValid := true, handle := USART6, isTx := false, isRx := true, af_mode := GPIO_AF8 }

def UART_INVALID_PIN : UARTValidPin :=
  { isValid := false, handle := 0, isRx := false, isTx := false, af_mode := 0 }

/-- uartPinMappings from parser.h: the ten UART-capable pins. -/
def uartPinMappings : List (Nat × Nat × UARTValidPin) :=
  [(GPIOA, 2 ^ 9, UART1_TX_PIN), (GPIOA, 2 ^ 10, UART1_RX_PIN),
   (GPIOA, 2 ^ 11, UART6_TX_PIN), (GPIOA, 2 ^ 12, UART6_RX_PIN),
   (GPIOA, 2 ^ 15, UART1_TX_PIN), (GPIOB, 2 ^ 3, UART1_RX_PIN),
   (GPIOB, 2 ^ 6, UART1_TX_PIN), (GPIOB, 2 ^ 7, UART1_RX_PIN),
   (GPIOC, 2 ^ 6, UART6_TX_PIN), (GPIOC, 2 ^ 7, UART6_RX_PIN)]

/-- getUARTInfo from parser.c. -/
def getUARTInfo (port pin : Nat) : UARTValidPin :=
  match uartPinMappings.find? (fun m => m.1 == port && m.2.1 == pin) with
  | some m => m.2.2
  | none => UART_INVALID_PIN

/-- getUARTclock from parser.c. -/
def getUARTclock (handle : Nat) : Clk :=
  if handle = USART1 then Clk.RCC_USART1
  else if handle = USART6 then Clk.RCC_USART6
  else Clk.RCC_GPIOK

/-- getUARTNVICEntry from parser.c. -/
def getUARTNVICEntry (handle : Nat) : Nat :=
  if handle = USART1 then NVIC_USART1_IRQ
  else if handle = USART6 then NVIC_USART6_IRQ
  else 0

/-- getTokenVector as used by the executor: every embedded call site
indexes strictly below the vector length (the vector always carries the
end-of-line token), so the out-of-range hang modelled by
getTokenVectorFuel is not reached from here. -/
def tokGet (vec : List Token) (i : Nat) : Token :=
  vec.getD i { type := TokenType.EOL, start := 0, length := 0 }

/-- State gathered by the argument loop of the inputOutput handler. -/
structure IOScan where
  pupd : Nat
  port : Nat
  pin : Nat
  port_pin_set : Bool
  pupd_set : Bool
deriving Repr, DecidableEq

/-- The argument loop of inputOutput: EOL skipped, one port-pin and one
resistor keyword collected, duplicates and unknown tokens rejected. -/
def inputOutputLoop (s : List Char) (toks : List Token) (st : IOScan) : Option IOScan :=
  match toks with
  | [] => some st
  | t :: rest =>
    match t.type with
    | TokenType.EOL => inputOutputLoop s rest st
    | TokenType.PORT_PIN =>
      if !st.port_pin_set then
        match parsePortPin s t with
        | none => none
        | some pp =>
          inputOutputLoop s rest { st with port := pp.1, pin := pp.2, port_pin_set := true }
      else none
    | TokenType.GPIO_NORESISTOR =>
      if !st.pupd_set then
        inputOutputLoop s rest { st with pupd := GPIO_PUPD_NONE, pupd_set := true }
      else none
    | TokenType.GPIO_PULLUP =>
      if !st.pupd_set then
        inputOutputLoop s rest { st with pupd := GPIO_PUPD_PULLUP, pupd_set := true }
      else none
    | TokenType.GPIO_PULLDOWN =>
      if !st.pupd_set then
        inputOutputLoop s rest { st with pupd := GPIO_PUPD_PULLDOWN, pupd_set := true }
      else none
    | _ => none

/-- inputOutput from parser.c: arity check (exactly 3 tokens follow the
keyword, the EOL excluded), argument gathering, then create or mutate
by the existing role at the location. -/
def inputOutput (bc : BoardController) (s : List Char) (vec : List Token)
    (input_output : OpCode) : Bool × BoardController :=
  if vec.length - 1 ≠ 3 then (false, bc)
  else
    match inputOutputLoop s (vec.drop 1)
        { pupd := 0, port := 0, pin := 0, port_pin_set := false, pupd_set := false } with
    | none => (false, bc)
    | some st =>
      if st.port_pin_set && st.pupd_set then
        let type_input_output :=
          if input_output = OpCode.OP_MAKE_INPUT then PeripheralType.TYPE_GPIO_INPUT
          else PeripheralType.TYPE_GPIO_OUTPUT
        let pin_exists := pinExists bc st.port st.pin
        if pin_exists = PeripheralType.TYPE_NONE then
          let clock := getClockFromPort st.port
          if clock = Clk.RCC_GPIOK then (false, bc)
          else (true, createDigitalPin bc st.port st.pin clock type_input_output st.pupd)
        else if pin_exists = PeripheralType.TYPE_GPIO_INPUT ∨
                pin_exists = PeripheralType.TYPE_GPIO_OUTPUT then
          (true, mutateDigitalPin bc st.port st.pin type_input_output st.pupd)
        else
          match pin_exists with
          | PeripheralType.TYPE_ADC =>
            (true, mutateADCToDigital bc st.port st.pin (getClockFromPort st.port)
              type_input_output st.pupd)
          | PeripheralType.TYPE_UART =>
            let bc1 := killPeripheralOrPin bc st.port st.pin
            (true, createDigitalPin bc1 st.port st.pin (getClockFromPort st.port)
              type_input_output st.pupd)
          | _ => (false, bc)
      else (false, bc)

/-- The per-token loop of setResetToggleRead: board state is only read,
hardware effects are accumulated. -/
def setResetToggleReadLoop (hw : HwModel) (bc : BoardController) (s : List Char)
    (toks : List Token) (operation : OpCode) (effs : List HwEff) : Bool × List HwEff :=
  match toks with
  | [] => (true, effs)
  | t :: rest =>
    if t.type = TokenType.EOL then setResetToggleReadLoop hw bc s rest operation effs
    else if t.type = TokenType.PORT_PIN then
      match parsePortPin s t with
      | none => (false, effs)
      | some pp =>
        if pinExists bc pp.1 pp.2 = PeripheralType.TYPE_GPIO_INPUT ∨
           pinExists bc pp.1 pp.2 = PeripheralType.TYPE_GPIO_OUTPUT then
          match operation with
          | OpCode.OP_SET =>
            let r := actionDigitalPin hw bc pp.1 pp.2 GPIOAction.GPIO_SET
            setResetToggleReadLoop hw bc s rest operation (effs ++ r.2)
          | OpCode.OP_RESET =>
            let r := actionDigitalPin hw bc pp.1 pp.2 GPIOAction.GPIO_CLEAR
            setResetToggleReadLoop hw bc s rest operation (effs ++ r.2)
          | OpCode.OP_TOGGLE =>
            let r := actionDigitalPin hw bc pp.1 pp.2 GPIOAction.GPIO_TOGGLE
            setResetToggleReadLoop hw bc s rest operation (effs ++ r.2)
          | OpCode.OP_READ =>
            let r := actionDigitalPin hw bc pp.1 pp.2 GPIOAction.GPIO_READ
            setResetToggleReadLoop hw bc s rest operation (effs ++ r.2)
          | _ => (false, effs)
        else if pinExists bc pp.1 pp.2 = PeripheralType.TYPE_ADC then
          match operation with
          | OpCode.OP_READ =>
            let r := actionAnalogPin hw bc pp.1 pp.2
            setResetToggleReadLoop hw bc s rest operation (effs ++ r.2)
          | _ => (false, effs)
        else (false, effs)
    else (false, effs)

/-- setResetToggleRead from parser.c: one or more port-pin tokens, each
acted on by the selected operation. -/
def setResetToggleRead (hw : HwModel) (bc : BoardController) (s : List Char)
    (vec : List Token) (operation : OpCode) : Bool × List HwEff :=
  setResetToggleReadLoop hw bc s (vec.drop 1) operation []

/-- The argument loop of the adc handler: exactly one port-pin. -/
def adcLoop (s : List Char) (toks : List Token) (port pin : Nat) (port_pin_set : Bool) :
    Option (Nat × Nat × Bool) :=
  match toks with
  | [] => some (port, pin, port_pin_set)
  | t :: rest =>
    match t.type with
    | TokenType.EOL => adcLoop s rest port pin port_pin_set
    | TokenType.PORT_PIN =>
      if !port_pin_set then
        match parsePortPin s t with
        | none => none
        | some pp => adcLoop s rest pp.1 pp.2 true
      else none
    | _ => none

/-- adc from parser.c: arity check, then create or mutate an analog pin
by the existing role; a UART at the location is killed first (the board
mutation performed by the kill survives a later channel failure, as in
the C control flow). -/
def adcCmd (bc : BoardController) (s : List Char) (vec : List Token) :
    Bool × BoardController :=
  if vec.length - 1 ≠ 2 then (false, bc)
  else
    match adcLoop s (vec.drop 1) 0 0 false with
    | none => (false, bc)
    | some st =>
      if st.2.2 then
        let port := st.1
        let pin := st.2.1
        match pinExists bc port pin with
        | PeripheralType.TYPE_GPIO_INPUT =>
          let channel := getADCChannelFromPortPin port pin
          if channel = ADC_OUT_OF_BOUNDS then (false, bc)
          else (true, mutateDigitalToADC bc port pin (getClockFromPort port)
            ADC_SMPR_SMP_3CYC getADCBase channel)
        | PeripheralType.TYPE_GPIO_OUTPUT =>
          let channel := getADCChannelFromPortPin port pin
          if channel = ADC_OUT_OF_BOUNDS then (false, bc)
          else (true, mutateDigitalToADC bc port pin (getClockFromPort port)
            ADC_SMPR_SMP_3CYC getADCBase channel)
        | PeripheralType.TYPE_UART =>
          let bc1 := killPeripheralOrPin bc port pin
          let channel := getADCChannelFromPortPin port pin
          if channel = ADC_OUT_OF_BOUNDS then (false, bc1)
          else (true, createAnalogPin bc1 port pin (getClockFromPort port)
            ADC_SMPR_SMP_3CYC getADCBase channel)
        | PeripheralType.TYPE_ADC => (true, bc)
        | PeripheralType.TYPE_NONE =>
          let channel := getADCChannelFromPortPin port pin
          if channel = ADC_OUT_OF_BOUNDS then (false, bc)
          else (true, createAnalogPin bc port pin (getClockFromPort port)
            ADC_SMPR_SMP_3CYC getADCBase channel)
        | PeripheralType.TYPE_OTHER => (false, bc)
      else (false, bc)

/-- State gathered by the argument loop of uartInitialise. -/
structure UartScan where
  rx_port : Nat
  rx_pin : Nat
  tx_port : Nat
  tx_pin : Nat
  baud_rate : Nat
  rx_set : Bool
  tx_set : Bool
  baud_set : Bool
deriving Repr, DecidableEq

/-- The argument loop of uartInitialise: first port-pin is the RX
candidate, second the TX candidate, the number must be one of the three
allowed baud rates (a second number is silently skipped, matching the
guarded block in the C loop). -/
def uartInitLoop (s : List Char) (toks : List Token) (st : UartScan) : Option UartScan :=
  match toks with
  | [] => some st
  | t :: rest =>
    match t.type with
    | TokenType.PORT_PIN =>
      if !st.rx_set && !st.tx_set then
        match parsePortPin s t with
        | none => none
        | some pp =>
          uartInitLoop s rest { st with rx_port := pp.1, rx_pin := pp.2, rx_set := true }
      else if st.rx_set && !st.tx_set then
        match parsePortPin s t with
        | none => none
        | some pp =>
          uartInitLoop s rest { st with tx_port := pp.1, tx_pin := pp.2, tx_set := true }
      else none
    | TokenType.NUMBER =>
      if !st.baud_set then
        let baud := strtoul10 s t.start
        if baud = 9600 ∨ baud = 57600 ∨ baud = 115200 then
          uartInitLoop s rest { st with baud_rate := baud, baud_set := true }
        else none
      else uartInitLoop s rest st
    | TokenType.EOL => uartInitLoop s rest st
    | _ => none

/-- uartInitialise from parser.c: arity check, argument gathering,
capability checks on both pins (valid, RX for the first, TX for the
second, same hardware instance), then kill whatever occupies either
location and build the UART. -/
def uartInitialise (bc : BoardController) (s : List Char) (vec : List Token) :
    Bool × BoardController :=
  if vec.length - 1 ≠ 4 then (false, bc)
  else
    match uartInitLoop s (vec.drop 1)
        { rx_port := 0, rx_pin := 0, tx_port := 0, tx_pin := 0, baud_rate := 0,
          rx_set := false, tx_set := false, baud_set := false } with
    | none => (false, bc)
    | some st =>
      if st.rx_set && st.tx_set && st.baud_set then
        let rx_validity := getUARTInfo st.rx_port st.rx_pin
        let tx_validity := getUARTInfo st.tx_port st.tx_pin
        if !rx_validity.isValid || !tx_validity.isValid then (false, bc)
        else if !rx_validity.isRx || !tx_validity.isTx then (false, bc)
        else if rx_validity.handle ≠ tx_validity.handle then (false, bc)
        else
          let handle := rx_validity.handle
          let uart_clock := getUARTclock handle
          let rx_clock := getClockFromPort st.rx_port
          let tx_clock := getClockFromPort st.tx_port
          let rx_exists := pinExists bc st.rx_port st.rx_pin
          let tx_exists := pinExists bc st.tx_port st.tx_pin
          let nvic_entry := getUARTNVICEntry handle
          if nvic_entry = 0 then (false, bc)
          else if rx_exists = PeripheralType.TYPE_NONE ∧
                  tx_exists = PeripheralType.TYPE_NONE then
            (true, createUART bc handle uart_clock st.baud_rate st.rx_port st.tx_port
              st.rx_pin st.tx_pin rx_clock tx_clock rx_validity.af_mode tx_validity.af_mode
              nvic_entry)
          else
            let bc1 :=
              if rx_exists ≠ PeripheralType.TYPE_NONE ∧
                 tx_exists = PeripheralType.TYPE_NONE then
                killPeripheralOrPin bc st.rx_port st.rx_pin
              else if rx_exists = PeripheralType.TYPE_NONE ∧
                      tx_exists ≠ PeripheralType.TYPE_NONE then
                killPeripheralOrPin bc st.tx_port st.tx_pin
              else
                killPeripheralOrPin (killPeripheralOrPin bc st.rx_port st.rx_pin)
                  st.tx_port st.tx_pin
            (true, createUART bc1 handle uart_clock st.baud_rate st.rx_port st.tx_port
              st.rx_pin st.tx_pin rx_clock tx_clock rx_validity.af_mode tx_validity.af_mode
              nvic_entry)
      else (false, bc)

/-- uart from parser.c: the second token selects initialise (port-pin),
read (drain the active receive buffer), or write (a quoted string). -/
def uartCmd (bc : BoardController) (s : List Char) (vec : List Token) :
    Bool × BoardController :=
  let next_token := tokGet vec 1
  if next_token.type = TokenType.PORT_PIN then uartInitialise bc s vec
  else if next_token.type = TokenType.GPIO_READ then
    let r := readUARTPort bc UART_MAX_READ
    if r.1 > 0 then (true, bc) else (false, bc)
  else if next_token.type = TokenType.WRITE then
    let t2 := tokGet vec 2
    if t2.type = TokenType.STRING then
      let _written := writeUARTPort bc t2.length
      (true, bc)
    else (false, bc)
  else (false, bc)

/-- parseTokensAndExecute from parser.c: dispatch on the first token.
The returned effects are the hardware accesses of the digital action
commands. -/
def parseTokensAndExecute (hw : HwModel) (bc : BoardController) (s : List Char)
    (vec : List Token) : Bool × BoardController × List HwEff :=
  let first_token := tokGet vec 0
  match first_token.type with
  | TokenType.GPIO_INPUT =>
    let r := inputOutput bc s vec OpCode.OP_MAKE_INPUT
    (r.1, r.2, [])
  | TokenType.GPIO_OUTPUT =>
    let r := inputOutput bc s vec OpCode.OP_MAKE_OUTPUT
    (r.1, r.2, [])
  | TokenType.GPIO_SET =>
    let r := setResetToggleRead hw bc s vec OpCode.OP_SET
    (r.1, bc, r.2)
  | TokenType.GPIO_RESET =>
    let r := setResetToggleRead hw bc s vec OpCode.OP_RESET
    (r.1, bc, r.2)
  | TokenType.GPIO_TOGGLE =>
    let r := setResetToggleRead hw bc s vec OpCode.OP_TOGGLE
    (r.1, bc, r.2)
  | TokenType.GPIO_READ =>
    let r := setResetToggleRead hw bc s vec OpCode.OP_READ
    (r.1, bc, r.2)
  | TokenType.ADC =>
    let r := adcCmd bc s vec
    (r.1, r.2, [])
  | TokenType.UART =>
    let r := uartCmd bc s vec
    (r.1, r.2, [])
  | _ => (false, bc, [])

/-- interpret from interpreter.c: scan the line, stop with failure on
the first error token (the board untouched), otherwise parse and
execute the token vector. -/
def interpret (hw : HwModel) (bc : BoardController) (source : List Char) :
    Bool × BoardController × List HwEff :=
  let toks := scanLine source 0
  if toks.any (fun t => t.type == TokenType.ERROR) then (false, bc, [])
  else parseTokensAndExecute hw bc source toks

/-! ## TokenVector growth (app/src/token.c) -/

/-- TokenVector: the stored tokens (used = list length) with the
explicit capacity. -/
structure TokenVector where
  tokens : List Token
  capacity : Nat
deriving Repr, DecidableEq

/-- initTokenVector: empty, capacity 4. -/
def initTokenVector : TokenVector := { tokens := [], capacity := 4 }

/-- appendTokenVector: grow by GROW_CAPACITY when full (realloc keeps
the contents), then store at the tail. -/
def appendTokenVector (vec : TokenVector) (tok : Token) : TokenVector :=
  let vec1 :=
    if vec.tokens.length = vec.capacity then
      { vec with capacity := GROW_CAPACITY vec.capacity }
    else vec
  { vec1 with tokens := vec1.tokens ++ [tok] }

/-! ## Fixtures and claim-side notions used by the theorems -/

/-- Quiescent hardware: input pins read low, the converter returns 0. -/
def hw0 : HwModel := { gpioLevel := fun _ _ => false, adcSample := 0 }

/-- The character of a decimal digit. -/
def dChar (d : Nat) : Char := Char.ofNat ('0'.toNat + d)

/-- index(letter) in the sense of the spec: A..E and a..e name the same
five ports. -/
def portLetterIndex (c : Char) : Nat :=
  if 'a' ≤ c then c.toNat - 'a'.toNat else c.toNat - 'A'.toNat

/-- An enabled peripheral claims the location (port, pin); a UART
claims both its RX and TX locations.  This is the notion of claim C4,
written from the spec invariant. -/
def claimsLocation (port pin : Nat) (p : PeripheralController) : Bool :=
  p.status &&
    (((p.type == PeripheralType.TYPE_GPIO_INPUT
        || p.type == PeripheralType.TYPE_GPIO_OUTPUT)
        && p.gpio.port == port && p.gpio.pin == pin)
      || (p.type == PeripheralType.TYPE_ADC && p.adc.port == port && p.adc.pin == pin)
      || (p.type == PeripheralType.TYPE_UART
            && ((p.uart.RX.port == port && p.uart.RX.pin == pin)
                || (p.uart.TX.port == port && p.uart.TX.pin == pin))))

/-- Number of clock table entries carrying a given clock id. -/
def countClkEntries (bc : BoardController) (c : Clk) : Nat :=
  bc.clocks.countP (fun e => e.clock == c)

/-- The line uart A10 A09 115200. -/
def uartLine : List Char := ("uart A10 A09 115200".toList)

/-- The token vector the spec grammar assigns to uartLine: the first
token is the uart keyword.  Modelled from the spec: the scanner as
written never produces a uart keyword token (claim C1), so this vector
is built directly; its spans match the line. -/
def uartVec : List Token :=
  [{ type := TokenType.UART, start := 0, length := 4 },
   { type := TokenType.PORT_PIN, start := 5, length := 3 },
   { type := TokenType.PORT_PIN, start := 9, length := 3 },
   { type := TokenType.NUMBER, start := 13, length := 6 },
   { type := TokenType.EOL, start := 19, length := 0 }]

/-- The C4 scenario, step by step: output A09 none; then the uart
initialisation (executor level, see uartVec); then input A09 none,
twice. -/
def c4Step1 : BoardController :=
  (interpret hw0 initBoard ("output A09 none".toList)).2.1

def c4Step2 : BoardController :=
  (parseTokensAndExecute hw0 c4Step1 uartLine uartVec).2.1

def c4Step3 : BoardController :=
  (interpret hw0 c4Step2 ("input A09 none".toList)).2.1

def c4Step4 : BoardController :=
  (interpret hw0 c4Step3 ("input A09 none".toList)).2.1

/-- A board holding a single enabled UART on USART1 with RX at A10 and
TX at A9, built by createUART from a fresh board (the C6 and C7
scenario). -/
def uartOnlyBoard : BoardController :=
  createUART initBoard USART1 Clk.RCC_USART1 115200 GPIOA GPIOA (2 ^ 10) (2 ^ 9)
    Clk.RCC_GPIOA Clk.RCC_GPIOA GPIO_AF7 GPIO_AF7 NVIC_USART1_IRQ

/-- A board holding one digital input at A5 (the C5 scenario). -/
def inputA5Board : BoardController :=
  (interpret hw0 initBoard ("input A05 none".toList)).2.1

/-- A token vector at full capacity 1, for exercising growth. -/
def oneTokVec : TokenVector :=
  { tokens := [{ type := TokenType.EOL, start := 0, length := 0 }], capacity := 1 }

/-- A second token to append. -/
def eolTok1 : Token := { type := TokenType.EOL, start := 1, length := 0 }

/-! ## Theorems -/

/-- Masking with 2 ^ k - 1 is reduction mod 2 ^ k: the power-of-two
wraparound trick the ring buffer relies on. -/
theorem and_two_pow_sub_one (x k : Nat) : x &&& (2 ^ k - 1) = x % 2 ^ k := by
  apply Nat.eq_of_testBit_eq
  intro i
  simp [Nat.testBit_and, Nat.testBit_mod_two_pow, Nat.testBit_two_pow_sub_one, Bool.and_comm]

theorem two_pow_pos' (k : Nat) : 0 < 2 ^ k := Nat.pos_pow_of_pos k (by norm_num)

theorem mod_small_cases (x cap : Nat) (hx : x < 2 * cap) (_hpos : 0 < cap) :
    x % cap = if x < cap then x else x - cap := by
  split
  · exact Nat.mod_eq_of_lt (by assumption)
  · rw [Nat.mod_eq_sub_mod (by omega), Nat.mod_eq_of_lt (by omega)]

theorem rbPending_lt (rb : RingBuffer) (k : Nat) (h : RBWF rb k) :
    rbPending rb < 2 ^ k := by
  have hb := h.buf_len
  have hr := h.r_lt
  have hw := h.w_lt
  unfold rbPending
  split <;> omega

theorem rbContents_length (rb : RingBuffer) :
    (rbContents rb).length = rbPending rb := by
  simp [rbContents]

theorem rbFull_iff (rb : RingBuffer) (k : Nat) (h : RBWF rb k) :
    ((rb.write_index + 1) &&& rb.mask = rb.read_index) ↔
      rbPending rb = 2 ^ k - 1 := by
  rw [h.mask_eq, and_two_pow_sub_one]
  have hb := h.buf_len
  have hr := h.r_lt
  have hw := h.w_lt
  have hpos := two_pow_pos' k
  rcases Nat.lt_or_ge (rb.write_index + 1) (2 ^ k) with hlt | hge
  · rw [Nat.mod_eq_of_lt hlt]
    unfold rbPending
    split <;> omega
  · have hweq : rb.write_index + 1 = 2 ^ k := by omega
    rw [hweq, Nat.mod_self]
    unfold rbPending
    split <;> omega

theorem rbEmpty_iff_contents (rb : RingBuffer) (k : Nat) (h : RBWF rb k) :
    (coreRingBufferEmpty rb = true) ↔ rbContents rb = [] := by
  rw [coreRingBufferEmpty, beq_iff_eq, ← List.length_eq_zero (l := rbContents rb),
    rbContents_length]
  have hb := h.buf_len
  have hr := h.r_lt
  have hw := h.w_lt
  unfold rbPending
  split <;> omega

theorem coreRingBufferWrite_full (rb : RingBuffer) (k b : Nat) (h : RBWF rb k)
    (hfull : rbPending rb = 2 ^ k - 1) :
    coreRingBufferWrite rb b = (false, rb) := by
  have hc := (rbFull_iff rb k h).mpr hfull
  simp [coreRingBufferWrite, hc]

theorem coreRingBufferWrite_ok (rb : RingBuffer) (k b : Nat) (h : RBWF rb k)
    (hnf : rbPending rb ≠ 2 ^ k - 1) :
    (coreRingBufferWrite rb b).1 = true
    ∧ RBWF (coreRingBufferWrite rb b).2 k
    ∧ rbContents (coreRingBufferWrite rb b).2 = rbContents rb ++ [b] := by
  have hb := h.buf_len
  have hr := h.r_lt
  have hw := h.w_lt
  have hpos := two_pow_pos' k
  have hne : ¬((rb.write_index + 1) &&& rb.mask = rb.read_index) :=
    fun hc => hnf ((rbFull_iff rb k h).mp hc)
  have hmask : (rb.write_index + 1) &&& rb.mask = (rb.write_index + 1) % 2 ^ k := by
    rw [h.mask_eq, and_two_pow_sub_one]
  have hne2 : ¬((rb.write_index + 1) % 2 ^ k = rb.read_index) := hmask ▸ hne
  have heq : coreRingBufferWrite rb b =
      (true, { rb with buffer := rb.buffer.set rb.write_index b,
                       write_index := (rb.write_index + 1) % 2 ^ k }) := by
    simp [coreRingBufferWrite, hne, hmask, hne2]
  rw [heq]
  have hmod : (rb.write_index + 1) % 2 ^ k =
      if rb.write_index + 1 < 2 ^ k then rb.write_index + 1
      else rb.write_index + 1 - 2 ^ k :=
    mod_small_cases _ _ (by omega) hpos
  have hpendrb : rbPending rb =
      if rb.read_index ≤ rb.write_index then rb.write_index - rb.read_index
      else 2 ^ k + rb.write_index - rb.read_index := by
    unfold rbPending
    rw [hb]
  refine ⟨rfl, ⟨by simpa using hb, h.mask_eq, h.r_lt, by simpa using Nat.mod_lt _ hpos⟩, ?_⟩
  have hpend : rbPending { rb with buffer := rb.buffer.set rb.write_index b,
                                   write_index := (rb.write_index + 1) % 2 ^ k }
      = rbPending rb + 1 := by
    unfold rbPending
    simp only [List.length_set, hb, hmod]
    rw [hpendrb] at hnf
    split at hnf <;> split <;> split <;> omega
  unfold rbContents
  simp only [List.length_set, hpend]
  rw [List.range_succ, List.map_append]
  have hidx : (rb.read_index + rbPending rb) % rb.buffer.length = rb.write_index := by
    rw [hb, mod_small_cases _ _ (by rw [hpendrb]; split <;> omega) hpos, hpendrb]
    split <;> split <;> omega
  congr 1
  · apply List.map_congr_left
    intro i hi
    rw [List.mem_range] at hi
    have hidx2 : (rb.read_index + i) % rb.buffer.length ≠ rb.write_index := by
      rw [hb, mod_small_cases _ _ (by rw [hpendrb] at hi; split at hi <;> omega) hpos]
      rw [hpendrb] at hi
      split at hi <;> split <;> omega
    simp only [List.getD_eq_getElem?_getD, List.getElem?_set_ne (Ne.symm hidx2)]
  · simp only [List.map_cons, List.map_nil, hidx, List.getD_eq_getElem?_getD]
    rw [List.getElem?_set_self' (a := b)]
    simp only [List.getElem?_eq_getElem (by omega : rb.write_index < rb.buffer.length)]
    simp

theorem coreRingBufferRead_empty (rb : RingBuffer) (k : Nat) (h : RBWF rb k)
    (he : rbContents rb = []) :
    coreRingBufferRead rb = (none, rb) := by
  have hrw : rb.read_index = rb.write_index := by
    have := (rbEmpty_iff_contents rb k h).mpr he
    simpa [coreRingBufferEmpty] using this
  simp [coreRingBufferRead, hrw]

theorem coreRingBufferRead_ok (rb : RingBuffer) (k b : Nat) (rest : List Nat)
    (h : RBWF rb k) (hc : rbContents rb = b :: rest) :
    (coreRingBufferRead rb).1 = some b
    ∧ RBWF (coreRingBufferRead rb).2 k
    ∧ rbContents (coreRingBufferRead rb).2 = rest := by
  have hb := h.buf_len
  have hr := h.r_lt
  have hw := h.w_lt
  have hpos := two_pow_pos' k
  have hpendpos : 0 < rbPending rb := by
    have hlen := rbContents_length rb
    rw [hc] at hlen
    simp only [List.length_cons] at hlen
    omega
  have hrw : ¬(rb.read_index = rb.write_index) := by
    intro hco
    have : rbPending rb = 0 := by
      unfold rbPending
      split <;> omega
    omega
  have hmask : (rb.read_index + 1) &&& rb.mask = (rb.read_index + 1) % 2 ^ k := by
    rw [h.mask_eq, and_two_pow_sub_one]
  have heq : coreRingBufferRead rb =
      (some (rb.buffer.getD rb.read_index 0),
       { rb with read_index := (rb.read_index + 1) % 2 ^ k }) := by
    simp [coreRingBufferRead, hrw, hmask]
  rw [heq]
  have hpendrb : rbPending rb =
      if rb.read_index ≤ rb.write_index then rb.write_index - rb.read_index
      else 2 ^ k + rb.write_index - rb.read_index := by
    unfold rbPending
    rw [hb]
  have hmod : (rb.read_index + 1) % 2 ^ k =
      if rb.read_index + 1 < 2 ^ k then rb.read_index + 1
      else rb.read_index + 1 - 2 ^ k :=
    mod_small_cases _ _ (by omega) hpos
  obtain ⟨p, hp⟩ : ∃ p, rbPending rb = p + 1 := ⟨rbPending rb - 1, by omega⟩
  have hcexp : rbContents rb =
      rb.buffer.getD (rb.read_index % rb.buffer.length) 0 ::
        (List.range p).map
          (fun i => rb.buffer.getD ((rb.read_index + (i + 1)) % rb.buffer.length) 0) := by
    unfold rbContents
    rw [hp, List.range_succ_eq_map, List.map_cons, List.map_map]
    simp [Function.comp_def]
  rw [hc] at hcexp
  have hhead : b = rb.buffer.getD rb.read_index 0 := by
    have := congrArg List.head? hcexp
    simp only [List.head?_cons, Option.some_inj] at this
    rw [this, hb, Nat.mod_eq_of_lt hr]
  have htail : rest = (List.range p).map
      (fun i => rb.buffer.getD ((rb.read_index + (i + 1)) % rb.buffer.length) 0) := by
    have := congrArg List.tail hcexp
    simpa using this
  refine ⟨by rw [hhead], ⟨hb, h.mask_eq, by simpa using Nat.mod_lt _ hpos, h.w_lt⟩, ?_⟩
  have hpend' : rbPending { rb with read_index := (rb.read_index + 1) % 2 ^ k } = p := by
    unfold rbPending
    simp only [hb, hmod]
    rw [hpendrb] at hp
    split at hp <;> split <;> split <;> omega
  unfold rbContents
  simp only [hpend', hb]
  rw [htail]
  apply List.map_congr_left
  intro i hi
  have : ((rb.read_index + 1) % 2 ^ k + i) % 2 ^ k = (rb.read_index + (i + 1)) % 2 ^ k := by
    rw [Nat.mod_add_mod]
    ring_nf
  rw [hb, this]

theorem rbRun_simulates (k : Nat) (ops : List RBOp) (rb : RingBuffer) (h : RBWF rb k) :
    (rbRun rb ops).2 = (specRun (2 ^ k) (rbContents rb) ops).2
    ∧ rbContents (rbRun rb ops).1 = (specRun (2 ^ k) (rbContents rb) ops).1
    ∧ RBWF (rbRun rb ops).1 k := by
  induction ops generalizing rb with
  | nil => exact ⟨rfl, rfl, h⟩
  | cons op ops ih =>
    cases op with
    | wr b =>
      have hcon : rbRun rb (RBOp.wr b :: ops) =
          ((rbRun (coreRingBufferWrite rb b).2 ops).1,
           RBOut.wrote (coreRingBufferWrite rb b).1 ::
             (rbRun (coreRingBufferWrite rb b).2 ops).2) := by
        simp only [rbRun]
      by_cases hfull : rbPending rb = 2 ^ k - 1
      · have hwf := coreRingBufferWrite_full rb k b h hfull
        have hlen : (rbContents rb).length = 2 ^ k - 1 := by
          rw [rbContents_length]
          exact hfull
        have hspec : specRun (2 ^ k) (rbContents rb) (RBOp.wr b :: ops) =
            ((specRun (2 ^ k) (rbContents rb) ops).1,
             RBOut.wrote false :: (specRun (2 ^ k) (rbContents rb) ops).2) := by
          simp only [specRun]
          rw [if_pos hlen]
        obtain ⟨h1, h2, h3⟩ := ih rb h
        rw [hcon, hspec, hwf]
        exact ⟨by simp [h1], by simpa using h2, by simpa using h3⟩
      · obtain ⟨w1, w2, w3⟩ := coreRingBufferWrite_ok rb k b h hfull
        have hlen : ¬((rbContents rb).length = 2 ^ k - 1) := by
          rw [rbContents_length]
          exact hfull
        have hspec : specRun (2 ^ k) (rbContents rb) (RBOp.wr b :: ops) =
            ((specRun (2 ^ k) (rbContents rb ++ [b]) ops).1,
             RBOut.wrote true :: (specRun (2 ^ k) (rbContents rb ++ [b]) ops).2) := by
          simp only [specRun]
          rw [if_neg hlen]
        obtain ⟨g1, g2, g3⟩ := ih (coreRingBufferWrite rb b).2 w2
        rw [w3] at g1 g2
        rw [hcon, hspec, w1]
        exact ⟨by simp [g1], by simpa using g2, g3⟩
    | rd =>
      have hcon : rbRun rb (RBOp.rd :: ops) =
          ((rbRun (coreRingBufferRead rb).2 ops).1,
           RBOut.got (coreRingBufferRead rb).1 ::
             (rbRun (coreRingBufferRead rb).2 ops).2) := by
        simp only [rbRun]
      cases hc : rbContents rb with
      | nil =>
        have hrd := coreRingBufferRead_empty rb k h hc
        have hspec : specRun (2 ^ k) [] (RBOp.rd :: ops) =
            ((specRun (2 ^ k) [] ops).1,
             RBOut.got none :: (specRun (2 ^ k) [] ops).2) := by
          simp only [specRun]
        obtain ⟨h1, h2, h3⟩ := ih rb h
        rw [hcon, hspec, hrd]
        rw [hc] at h1 h2
        exact ⟨by simp [h1], by simpa using h2, by simpa using h3⟩
      | cons b rest =>
        obtain ⟨r1, r2, r3⟩ := coreRingBufferRead_ok rb k b rest h hc
        have hspec : specRun (2 ^ k) (b :: rest) (RBOp.rd :: ops) =
            ((specRun (2 ^ k) rest ops).1,
             RBOut.got (some b) :: (specRun (2 ^ k) rest ops).2) := by
          simp only [specRun]
        obtain ⟨g1, g2, g3⟩ := ih (coreRingBufferRead rb).2 r2
        rw [r3] at g1 g2
        rw [hcon, hspec, r1]
        exact ⟨by simp [g1], by simpa using g2, g3⟩

/-- C2: for a ring buffer set up with a power-of-two capacity, every
interleaved sequence of writes and reads behaves exactly like the ideal
bounded FIFO queue holding at most capacity - 1 bytes: each read returns
exactly the bytes previously written in first-in-first-out order; a write
issued when the buffer is full (next write index equals read index, that
is, capacity - 1 bytes pending) returns failure and leaves the unread
bytes and both indices unchanged; and coreRingBufferEmpty is true iff no
unread byte remains. -/
theorem ringBuffer_fifo_spec (k : Nat) (rb : RingBuffer) (h : RBWF rb k) :
    (∀ ops : List RBOp,
        (rbRun rb ops).2 = (specRun (2 ^ k) (rbContents rb) ops).2)
    ∧ (∀ b, rbPending rb = 2 ^ k - 1 → coreRingBufferWrite rb b = (false, rb))
    ∧ ((coreRingBufferEmpty rb = true) ↔ rbContents rb = []) := by
  refine ⟨fun ops => (rbRun_simulates k ops rb h).1,
    fun b hfull => coreRingBufferWrite_full rb k b h hfull,
    rbEmpty_iff_contents rb k h⟩

/-- Witness for C2 at the concrete buffer of capacity 4 = 2 ^ 2. -/
theorem ringBuffer_fifo_spec_witness :
    RBWF (coreRingBufferSetup (List.replicate 4 0) 4) 2
    ∧ ((∀ ops : List RBOp,
          (rbRun (coreRingBufferSetup (List.replicate 4 0) 4) ops).2 =
            (specRun (2 ^ 2)
              (rbContents (coreRingBufferSetup (List.replicate 4 0) 4)) ops).2)
        ∧ (∀ b, rbPending (coreRingBufferSetup (List.replicate 4 0) 4) = 2 ^ 2 - 1 →
            coreRingBufferWrite (coreRingBufferSetup (List.replicate 4 0) 4) b =
              (false, coreRingBufferSetup (List.replicate 4 0) 4))
        ∧ ((coreRingBufferEmpty (coreRingBufferSetup (List.replicate 4 0) 4) = true) ↔
            rbContents (coreRingBufferSetup (List.replicate 4 0) 4) = [])) :=
  ⟨⟨by decide, by decide, by decide, by decide⟩,
   ringBuffer_fifo_spec 2 (coreRingBufferSetup (List.replicate 4 0) 4)
     ⟨by decide, by decide, by decide, by decide⟩⟩

theorem getTokenVectorHang_eq_none (fuel : Nat) : getTokenVectorHang fuel = none := by
  induction fuel with
  | zero => rfl
  | succ n ih => simpa [getTokenVectorHang] using ih

/-- C10: getTokenVector returns the stored token when index < used, and
for every index ≥ used it never returns: no amount of fuel makes the
error loop terminate, so an executor that indexes past the end of the
vector hangs instead of failing an assertion or returning an error. -/
theorem getTokenVector_hangs_out_of_range (tokens : List α) (used index : Nat) :
    (index < used → ∀ fuel, getTokenVectorFuel tokens used index fuel = tokens.get? index)
    ∧ (used ≤ index → ∀ fuel, getTokenVectorFuel tokens used index fuel = none) := by
  constructor
  · intro hlt fuel
    simp [getTokenVectorFuel, Nat.not_le.mpr hlt]
  · intro hge fuel
    simp [getTokenVectorFuel, hge, getTokenVectorHang_eq_none]

/-- Witness for C10 on a two-token vector: index 1 is returned under any
fuel, index 2 has not returned even after a million loop iterations. -/
theorem getTokenVector_hangs_out_of_range_witness :
    getTokenVectorFuel [10, 20] 2 1 5 = some 20
    ∧ getTokenVectorFuel [10, 20] 2 2 1000000 = none :=
  ⟨by
    have hh := (getTokenVector_hangs_out_of_range [10, 20] 2 1).1 (by decide) 5
    simpa using hh,
   (getTokenVector_hangs_out_of_range [10, 20] 2 2).2 (by decide) 1000000⟩

theorem isValidPortPin_ne_uart (s : List Char) (start : Nat) :
    isValidPortPin s start ≠ TokenType.UART := by
  intro h
  unfold isValidPortPin at h
  repeat' split at h
  all_goals exact absurd h (by decide)

theorem checkKeyword_eq_uart (s : List Char) (start cur off : Nat) (rest : List Char)
    (t : TokenType) (h : checkKeyword s start cur off rest t = TokenType.UART) :
    t = TokenType.UART := by
  unfold checkKeyword at h
  split at h
  · exact h
  · exact absurd h (isValidPortPin_ne_uart s start)

theorem identifierType_ne_uart (s : List Char) (start cur : Nat) :
    identifierType s start cur ≠ TokenType.UART := by
  intro h
  unfold identifierType at h
  by_cases c1 : chAt s start = 'a'
  · rw [if_pos c1] at h
    exact absurd (checkKeyword_eq_uart _ _ _ _ _ _ h) (by decide)
  rw [if_neg c1] at h
  by_cases c2 : chAt s start = 'i'
  · rw [if_pos c2] at h
    exact absurd (checkKeyword_eq_uart _ _ _ _ _ _ h) (by decide)
  rw [if_neg c2] at h
  by_cases c3 : chAt s start = 'n'
  · rw [if_pos c3] at h
    exact absurd (checkKeyword_eq_uart _ _ _ _ _ _ h) (by decide)
  rw [if_neg c3] at h
  by_cases c4 : chAt s start = 'o'
  · rw [if_pos c4] at h
    exact absurd (checkKeyword_eq_uart _ _ _ _ _ _ h) (by decide)
  rw [if_neg c4] at h
  by_cases c5 : chAt s start = 's'
  · rw [if_pos c5] at h
    exact absurd (checkKeyword_eq_uart _ _ _ _ _ _ h) (by decide)
  rw [if_neg c5] at h
  by_cases c6 : chAt s start = 'r'
  · rw [if_pos c6] at h
    by_cases d1 : cur - start > 1
    · rw [if_pos d1] at h
      by_cases d2 : chAt s (start + 1) = 'e'
      · rw [if_pos d2] at h
        by_cases d3 : cur - start > 2
        · rw [if_pos d3] at h
          by_cases d4 : chAt s (start + 2) = 'a'
          · rw [if_pos d4] at h
            exact absurd (checkKeyword_eq_uart _ _ _ _ _ _ h) (by decide)
          rw [if_neg d4] at h
          by_cases d5 : chAt s (start + 2) = 's'
          · rw [if_pos d5] at h
            exact absurd (checkKeyword_eq_uart _ _ _ _ _ _ h) (by decide)
          rw [if_neg d5] at h
          exact isValidPortPin_ne_uart _ _ h
        rw [if_neg d3] at h
        exact isValidPortPin_ne_uart _ _ h
      rw [if_neg d2] at h
      exact isValidPortPin_ne_uart _ _ h
    rw [if_neg d1] at h
    exact isValidPortPin_ne_uart _ _ h
  rw [if_neg c6] at h
  by_cases c7 : chAt s start = 'p'
  · rw [if_pos c7] at h
    by_cases e1 : cur - start > 1
    · rw [if_pos e1] at h
      by_cases e2 : chAt s (start + 1) = 'u'
      · rw [if_pos e2] at h
        exact absurd (checkKeyword_eq_uart _ _ _ _ _ _ h) (by decide)
      rw [if_neg e2] at h
      by_cases e3 : chAt s (start + 1) = 'd'
      · rw [if_pos e3] at h
        exact absurd (checkKeyword_eq_uart _ _ _ _ _ _ h) (by decide)
      rw [if_neg e3] at h
      exact isValidPortPin_ne_uart _ _ h
    rw [if_neg e1] at h
    exact isValidPortPin_ne_uart _ _ h
  rw [if_neg c7] at h
  by_cases c8 : chAt s start = 't'
  · rw [if_pos c8] at h
    exact absurd (checkKeyword_eq_uart _ _ _ _ _ _ h) (by decide)
  rw [if_neg c8] at h
  by_cases c9 : chAt s start = 'w'
  · rw [if_pos c9] at h
    exact absurd (checkKeyword_eq_uart _ _ _ _ _ _ h) (by decide)
  rw [if_neg c9] at h
  exact isValidPortPin_ne_uart _ _ h

/-- C1: the claim fails on the code and the intent is clear, so this
records the bug: identifierType has no case for the letter u and
token.h has no uart token type, so no token is ever classified as the
uart keyword; the line uart read is aborted by the scanner as an error
and interpret reports failure without reaching the uart handler of
parser.c (which is therefore unreachable). -/
theorem uart_keyword_never_scanned :
    (∀ (s : List Char) (start cur : Nat), identifierType s start cur ≠ TokenType.UART)
    ∧ (scanLine ("uart read".toList) 0).map Token.type = [TokenType.ERROR]
    ∧ ∀ (hw : HwModel) (bc : BoardController),
        interpret hw bc ("uart read".toList) = (false, bc, []) := by
  refine ⟨identifierType_ne_uart, by decide, ?_⟩
  intro hw bc
  rfl

/-- C3 counterexample: the single-digit text A5 (letter A and pin 5,
both inside the claimed ranges) is not accepted as a port-pin token:
the scanner emits an error token for it. -/
theorem portpin_single_digit_rejected :
    (scanLine ("A5".toList) 0).map Token.type = [TokenType.ERROR] := by decide

/-- C3 as amended: the scanner only accepts the two-digit spelling.
For every letter in A..E and a..e and pin 0..15, the text
letter ++ two-digit pin is accepted as a port-pin token and resolves to
port GPIOA + 0x400 * index(letter) (case-insensitively) with bitmask
2 ^ pin; two-digit texts 16..99 are rejected by the scanner, and
parsePortPin rejects any token whose pin digits value 16 or higher. -/
theorem portpin_resolution (L : Char) (p : Nat)
    (hL : L ∈ (['A', 'B', 'C', 'D', 'E', 'a', 'b', 'c', 'd', 'e'] : List Char)) :
    (p ≤ 15 →
      (scanLine [L, dChar (p / 10), dChar (p % 10)] 0).map Token.type
          = [TokenType.PORT_PIN, TokenType.EOL]
      ∧ parsePortPin [L, dChar (p / 10), dChar (p % 10)]
            { type := TokenType.PORT_PIN, start := 0, length := 3 }
          = some (GPIOA + PORT_SIZE * portLetterIndex L, 2 ^ p))
    ∧ (16 ≤ p → p ≤ 99 →
        (scanLine [L, dChar (p / 10), dChar (p % 10)] 0).map Token.type
          = [TokenType.ERROR])
    ∧ (∀ (s : List Char) (tok : Token), 16 ≤ strtoul10 s (tok.start + 1) →
        parsePortPin s tok = none) := by
  refine ⟨?_, ?_, ?_⟩
  · intro hp
    interval_cases p <;> fin_cases hL <;> exact ⟨by decide, by decide⟩
  · intro h16 h99
    have hall : ∀ q ∈ Finset.Icc 16 99,
        ∀ M ∈ (['A', 'B', 'C', 'D', 'E', 'a', 'b', 'c', 'd', 'e'] : List Char),
        (scanLine [M, dChar (q / 10), dChar (q % 10)] 0).map Token.type
          = [TokenType.ERROR] := by decide
    exact hall p (Finset.mem_Icc.mpr ⟨h16, h99⟩) L hL
  · intro s tok h16
    unfold parsePortPin
    simp only []
    split
    · rfl
    · rw [if_neg (by omega)]

/-- Witness for C3 at letter A and pin 5. -/
theorem portpin_resolution_witness :
    ('A' ∈ (['A', 'B', 'C', 'D', 'E', 'a', 'b', 'c', 'd', 'e'] : List Char))
    ∧ ((5 ≤ 15 →
        (scanLine ['A', dChar (5 / 10), dChar (5 % 10)] 0).map Token.type
            = [TokenType.PORT_PIN, TokenType.EOL]
        ∧ parsePortPin ['A', dChar (5 / 10), dChar (5 % 10)]
              { type := TokenType.PORT_PIN, start := 0, length := 3 }
            = some (GPIOA + PORT_SIZE * portLetterIndex 'A', 2 ^ 5))
      ∧ (16 ≤ 5 → 5 ≤ 99 →
          (scanLine ['A', dChar (5 / 10), dChar (5 % 10)] 0).map Token.type
            = [TokenType.ERROR])
      ∧ (∀ (s : List Char) (tok : Token), 16 ≤ strtoul10 s (tok.start + 1) →
          parsePortPin s tok = none)) :=
  ⟨by decide, portpin_resolution 'A' 5 (by decide)⟩

/-- C4: the claim fails on the code and the spec invariant is clearly
the intent, so this records the bug by running the sequence
output A09 none; uart A10 A09 115200; input A09 none; input A09 none
from the empty board (the uart step at executor level, see uartVec):
every step reports success, yet afterwards two enabled peripherals
claim (GPIOA, pin 9).  The cause is that the mutateDigitalPin loop,
unlike pinExists and killPeripheralOrPin, never checks the status flag
and so revives the stale disabled entry left by the UART teardown while
the newer enabled entry stays in the table. -/
theorem board_double_claim_reachable :
    (interpret hw0 initBoard ("output A09 none".toList)).1 = true
    ∧ (parseTokensAndExecute hw0 c4Step1 uartLine uartVec).1 = true
    ∧ (interpret hw0 c4Step2 ("input A09 none".toList)).1 = true
    ∧ (interpret hw0 c4Step3 ("input A09 none".toList)).1 = true
    ∧ c4Step4.peripherals.countP (claimsLocation GPIOA (2 ^ 9)) = 2 := by
  exact ⟨by decide, by decide, by decide, by decide, by decide⟩

/-- C6: the claim fails on the code and the intent is clear, so this
records the bug: on a board whose only peripheral is a UART with RX at
(GPIOA, pin 10) and TX at (GPIOA, pin 9), killing (GPIOA, pin 5) — a
location nothing claims, as pinExists confirms — disables that UART and
its peripheral clock, because the UART branch of the kill loop compares
ports but only tests the stored pins for being nonzero
(board-control.c lines 501-504). -/
theorem kill_disables_wrong_location :
    pinExists uartOnlyBoard GPIOA (2 ^ 5) = PeripheralType.TYPE_NONE
    ∧ uartOnlyBoard.peripherals.map PeripheralController.status = [true]
    ∧ (killPeripheralOrPin uartOnlyBoard GPIOA (2 ^ 5)).peripherals.map
        PeripheralController.status = [false]
    ∧ (killPeripheralOrPin uartOnlyBoard GPIOA (2 ^ 5)).clocks.map
        (fun c => (c.clock, c.clock_enabled)) =
        [(Clk.RCC_USART1, false), (Clk.RCC_GPIOA, true), (Clk.RCC_GPIOA, true)] := by
  exact ⟨by decide, by decide, by decide, by decide⟩

/-- C7 counterexample: createUART takes all three clock lookups before
appending anything (board-control.c lines 292-294), so building a UART
whose RX and TX share the GPIOA clock on a board that does not yet hold
that clock appends two entries for GPIOA: a duplicate entry is appended
for a clock that exists at append time. -/
theorem createUART_duplicates_shared_clock :
    uartOnlyBoard.clocks.map ClockController.clock =
      [Clk.RCC_USART1, Clk.RCC_GPIOA, Clk.RCC_GPIOA] := by decide

/-- C9 counterexample: the initial capacity of the board tables and of
the token vector is 4, not 8 (initBoard assigns 4 to both sizes,
initTokenVector assigns 4). -/
theorem initial_capacity_is_four :
    initBoard.clocks_size = 4 ∧ initBoard.peripherals_size = 4
    ∧ initTokenVector.capacity = 4 ∧ (4 : Nat) ≠ 8 := by decide

/-- C9 as amended: the collections start at capacity 4 and grow with
GROW_CAPACITY — a floor of 8 below 8, doubling from there on — never
shrink, and every append preserves the existing contents at their
positions with the new element at the tail. -/
theorem growth_discipline (vec : TokenVector) (tok : Token) (bc : BoardController)
    (cc : Clk) (pc : PeripheralController) :
    (appendTokenVector vec tok).tokens = vec.tokens ++ [tok]
    ∧ vec.capacity ≤ (appendTokenVector vec tok).capacity
    ∧ (vec.tokens.length = vec.capacity →
        (appendTokenVector vec tok).capacity = GROW_CAPACITY vec.capacity)
    ∧ (vec.tokens.length ≠ vec.capacity →
        (appendTokenVector vec tok).capacity = vec.capacity)
    ∧ (growClocks bc cc).clocks = bc.clocks ++ [create_clock cc]
    ∧ bc.clocks_size ≤ (growClocks bc cc).clocks_size
    ∧ (growPeripherals bc pc).peripherals = bc.peripherals ++ [pc]
    ∧ bc.peripherals_size ≤ (growPeripherals bc pc).peripherals_size
    ∧ (∀ cap : Nat, GROW_CAPACITY cap = (if cap < 8 then 8 else cap * 2)
        ∧ cap ≤ GROW_CAPACITY cap)
    ∧ initBoard.clocks_size = 4 ∧ initBoard.peripherals_size = 4
    ∧ initTokenVector.capacity = 4 := by
  refine ⟨?_, ?_, ?_, ?_, ?_, ?_, ?_, ?_, ?_, rfl, rfl, rfl⟩
  · unfold appendTokenVector
    split <;> rfl
  · unfold appendTokenVector GROW_CAPACITY
    split
    · simp only []
      split <;> omega
    · simp
  · intro h
    unfold appendTokenVector
    rw [if_pos h]
  · intro h
    unfold appendTokenVector
    rw [if_neg h]
  · unfold growClocks
    split <;> rfl
  · unfold growClocks GROW_CAPACITY
    split
    · simp only []
      split <;> omega
    · simp
  · unfold growPeripherals
    split <;> rfl
  · unfold growPeripherals GROW_CAPACITY
    split
    · simp only []
      split <;> omega
    · simp
  · intro cap
    unfold GROW_CAPACITY
    exact ⟨rfl, by split <;> omega⟩

/-- Witness for C9 (amended) at a full one-token vector and the empty
board. -/
theorem growth_discipline_witness :
    (appendTokenVector oneTokVec eolTok1).tokens = oneTokVec.tokens ++ [eolTok1]
    ∧ (appendTokenVector oneTokVec eolTok1).capacity = GROW_CAPACITY oneTokVec.capacity := by
  have h := growth_discipline oneTokVec eolTok1 initBoard Clk.RCC_GPIOA defaultPC
  exact ⟨h.1, h.2.2.1 (by decide)⟩


theorem scanLineGo_error_last (s : List Char) :
    ∀ (fuel i : Nat) (t : Token), t ∈ (scanLineGo s fuel i).dropLast →
      t.type ≠ TokenType.ERROR := by
  intro fuel
  induction fuel with
  | zero => intro i t ht; simp [scanLineGo] at ht
  | succ n ih =>
    intro i t ht
    simp only [scanLineGo] at ht
    by_cases hj : skipWs s i < s.length
    · rw [if_pos hj] at ht
      by_cases herr : (scanOne s (skipWs s i)).1.type = TokenType.ERROR
      · rw [if_pos herr] at ht
        simp at ht
      · rw [if_neg herr] at ht
        cases hrec : scanLineGo s n (scanOne s (skipWs s i)).2 with
        | nil => rw [hrec] at ht; simp at ht
        | cons a l =>
          rw [hrec, List.dropLast_cons₂] at ht
          rcases List.mem_cons.mp ht with rfl | ht2
          · exact herr
          · exact ih _ t (by rw [hrec]; exact ht2)
    · rw [if_neg hj] at ht
      simp at ht

/-- C8: scanning halts at the first error token (no token before the
last one is an error), and for every line whose scan contains an error
token interpret reports failure and leaves the board untouched. -/
theorem scan_error_aborts (hw : HwModel) (bc : BoardController) (s : List Char)
    (herr : (scanLine s 0).any (fun t => t.type == TokenType.ERROR) = true) :
    interpret hw bc s = (false, bc, [])
    ∧ ∀ t ∈ (scanLine s 0).dropLast, t.type ≠ TokenType.ERROR := by
  refine ⟨?_, fun t ht => scanLineGo_error_last s _ _ t ht⟩
  unfold interpret
  simp only []
  rw [herr]
  simp

/-- Witness for C8 at the spec example line foo A5. -/
theorem scan_error_aborts_witness :
    ((scanLine ("foo A5".toList) 0).any (fun t => t.type == TokenType.ERROR) = true)
    ∧ (interpret hw0 initBoard ("foo A5".toList) = (false, initBoard, [])
        ∧ ∀ t ∈ (scanLine ("foo A5".toList) 0).dropLast, t.type ≠ TokenType.ERROR) :=
  ⟨by decide, scan_error_aborts hw0 initBoard ("foo A5".toList) (by decide)⟩

theorem actionDigitalPinAux_input_set (hw : HwModel) (port pin : Nat) :
    ∀ ps : List PeripheralController,
      (∀ p ∈ ps, p.status = true) →
      pinExistsAux ps port pin = PeripheralType.TYPE_GPIO_INPUT →
      actionDigitalPinAux hw ps port pin GPIOAction.GPIO_SET = (0, []) := by
  intro ps
  induction ps with
  | nil => intro _ hpe; simp [pinExistsAux] at hpe
  | cons p rest ih =>
    intro hall hpe
    have hst : p.status = true := hall p (by simp)
    unfold pinExistsAux at hpe
    rw [hst] at hpe
    simp only [Bool.not_true] at hpe
    rw [if_neg Bool.false_ne_true] at hpe
    by_cases h1 : (p.type = PeripheralType.TYPE_GPIO_INPUT ∨
        p.type = PeripheralType.TYPE_GPIO_OUTPUT) ∧ p.gpio.port = port ∧ p.gpio.pin = pin
    · rw [if_pos h1] at hpe
      unfold actionDigitalPinAux
      rw [if_pos h1, if_pos hpe]
      simp
    · rw [if_neg h1] at hpe
      unfold actionDigitalPinAux
      rw [if_neg h1]
      by_cases h2 : p.type = PeripheralType.TYPE_ADC ∧ p.adc.port = port ∧ p.adc.pin = pin
      · rw [if_pos h2] at hpe
        rw [h2.1] at hpe
        exact absurd hpe (by decide)
      · rw [if_neg h2] at hpe
        by_cases h3 : p.type = PeripheralType.TYPE_UART ∧
            ((p.uart.RX.port = port ∧ p.uart.RX.pin = pin) ∨
             (p.uart.TX.port = port ∧ p.uart.TX.pin = pin))
        · rw [if_pos h3] at hpe
          rw [h3.1] at hpe
          exact absurd hpe (by decide)
        · rw [if_neg h3] at hpe
          exact ih (fun q hq => hall q (List.mem_cons_of_mem p hq)) hpe

/-- C5 as amended: on a board whose entries are all enabled, when the
current role at a location is digital input, a set command on that pin
is accepted rather than rejected: actionDigitalPin performs no hardware
access and yields 0, and the handler reports success with no error. -/
theorem set_on_input_accepted (hw : HwModel) (bc : BoardController) (port pin : Nat)
    (hall : ∀ p ∈ bc.peripherals, p.status = true)
    (hrole : pinExists bc port pin = PeripheralType.TYPE_GPIO_INPUT) :
    actionDigitalPin hw bc port pin GPIOAction.GPIO_SET = (0, [])
    ∧ ∀ (s : List Char) (t0 pp eol : Token),
        pp.type = TokenType.PORT_PIN → eol.type = TokenType.EOL →
        parsePortPin s pp = some (port, pin) →
        setResetToggleRead hw bc s [t0, pp, eol] OpCode.OP_SET = (true, []) := by
  have hact := actionDigitalPinAux_input_set hw port pin bc.peripherals hall hrole
  refine ⟨hact, ?_⟩
  intro s t0 pp eol hpp heol hparse
  unfold setResetToggleRead
  have hdrop : ([t0, pp, eol].drop 1) = [pp, eol] := rfl
  rw [hdrop]
  unfold setResetToggleReadLoop
  rw [if_neg (by rw [hpp]; decide), if_pos hpp, hparse]
  simp only []
  rw [if_pos (Or.inl hrole)]
  simp only [actionDigitalPin]
  rw [hact]
  simp only [List.nil_append]
  unfold setResetToggleReadLoop
  rw [if_pos heol]
  unfold setResetToggleReadLoop
  rfl

/-- C5 counterexample: with a digital input at (GPIOA, pin 5), as
pinExists reports, the line set A05 is not rejected: interpret reports
success with no error and no hardware access, the board unchanged. -/
theorem set_on_input_not_rejected :
    pinExists inputA5Board GPIOA (2 ^ 5) = PeripheralType.TYPE_GPIO_INPUT
    ∧ interpret hw0 inputA5Board ("set A05".toList) = (true, inputA5Board, []) := by
  exact ⟨by decide, by decide⟩

/-- Witness for C5 (amended) on the concrete input-A5 board. -/
theorem set_on_input_accepted_witness :
    (∀ p ∈ inputA5Board.peripherals, p.status = true)
    ∧ pinExists inputA5Board GPIOA (2 ^ 5) = PeripheralType.TYPE_GPIO_INPUT
    ∧ (actionDigitalPin hw0 inputA5Board GPIOA (2 ^ 5) GPIOAction.GPIO_SET = (0, [])
        ∧ ∀ (s : List Char) (t0 pp eol : Token),
            pp.type = TokenType.PORT_PIN → eol.type = TokenType.EOL →
            parsePortPin s pp = some (GPIOA, 2 ^ 5) →
            setResetToggleRead hw0 inputA5Board s [t0, pp, eol] OpCode.OP_SET = (true, [])) :=
  ⟨by decide, by decide,
   set_on_input_accepted hw0 inputA5Board GPIOA (2 ^ 5) (by decide) (by decide)⟩


theorem growClocks_clocks (bc : BoardController) (c : Clk) :
    (growClocks bc c).clocks = bc.clocks ++ [create_clock c] := by
  unfold growClocks
  split <;> rfl

theorem growPeripherals_clocks (bc : BoardController) (p : PeripheralController) :
    (growPeripherals bc p).clocks = bc.clocks := by
  unfold growPeripherals
  split <;> rfl

theorem enablePeriphLast_clocks (bc : BoardController) :
    (enablePeriphLast bc).clocks = bc.clocks := rfl

theorem enableClockAt_clocks (bc : BoardController) (i : Nat) :
    (enableClockAt bc i).clocks = listModify bc.clocks i enableClock := rfl

theorem clock_ne_of_not_branches {p : ClockController} {c : Clk}
    (h1 : ¬(p.clock = c ∧ p.clock_enabled = true))
    (h2 : ¬(p.clock = c ∧ ¬p.clock_enabled = true)) : p.clock ≠ c := by
  intro hc
  by_cases hen : p.clock_enabled = true
  · exact h1 ⟨hc, hen⟩
  · exact h2 ⟨hc, hen⟩

theorem listModify_cons_succ (a : α) (t : List α) (n : Nat) (f : α → α) :
    listModify (a :: t) (n + 1) f = a :: listModify t n f := by
  unfold listModify
  rw [List.get?_cons_succ]
  cases h : t.get? n with
  | none => rfl
  | some x => rfl

theorem listModify_append_last (l : List α) (x : α) (f : α → α) :
    listModify (l ++ [x]) l.length f = l ++ [f x] := by
  induction l with
  | nil => simp [listModify]
  | cons a rest ih =>
    simp only [List.cons_append, List.length_cons]
    rw [listModify_cons_succ, ih]

theorem clockExistsAux_not_found (c : Clk) :
    ∀ (l : List ClockController) (i : Nat),
      (clockExistsAux l c i).found = false → ∀ e ∈ l, e.clock ≠ c := by
  intro l
  induction l with
  | nil => intro i _ e he; simp at he
  | cons p rest ih =>
    intro i h e he
    unfold clockExistsAux at h
    by_cases h1 : p.clock = c ∧ p.clock_enabled = true
    · rw [if_pos h1] at h
      simp at h
    · rw [if_neg h1] at h
      by_cases h2 : p.clock = c ∧ ¬p.clock_enabled = true
      · rw [if_pos h2] at h
        simp at h
      · rw [if_neg h2] at h
        rcases List.mem_cons.mp he with rfl | he2
        · exact clock_ne_of_not_branches h1 h2
        · exact ih (i + 1) h e he2

theorem clockExistsAux_found (c : Clk) :
    ∀ (l : List ClockController) (i : Nat),
      (clockExistsAux l c i).found = true →
      ∃ j, (clockExistsAux l c i).index = i + j
        ∧ l.get? j = some { clock := c, clock_enabled := (clockExistsAux l c i).status }
        ∧ ∀ k, k < j → ∀ e, l.get? k = some e → e.clock ≠ c := by
  intro l
  induction l with
  | nil => intro i h; simp [clockExistsAux] at h
  | cons p rest ih =>
    intro i h
    unfold clockExistsAux at h ⊢
    by_cases h1 : p.clock = c ∧ p.clock_enabled = true
    · rw [if_pos h1] at h ⊢
      refine ⟨0, by simp, ?_, by omega⟩
      have hp : p = { clock := c, clock_enabled := true } := by
        cases p with
        | mk pc pe => simp at h1 ⊢; exact ⟨h1.1, h1.2⟩
      simp [hp]
    · rw [if_neg h1] at h ⊢
      by_cases h2 : p.clock = c ∧ ¬p.clock_enabled = true
      · rw [if_pos h2] at h ⊢
        refine ⟨0, by simp, ?_, by omega⟩
        have hp : p = { clock := c, clock_enabled := false } := by
          cases p with
          | mk pc pe => simp at h2 ⊢; exact ⟨h2.1, by simpa using h2.2⟩
        simp [hp]
      · rw [if_neg h2] at h ⊢
        obtain ⟨j, hidx, hget, hpre⟩ := ih (i + 1) h
        refine ⟨j + 1, by omega, by simpa [List.get?_cons_succ] using hget, ?_⟩
        intro k hk e hke
        cases k with
        | zero =>
          simp at hke
          subst hke
          exact clock_ne_of_not_branches h1 h2
        | succ k2 =>
          exact hpre k2 (by omega) e (by simpa [List.get?_cons_succ] using hke)

theorem countP_two_positions (p : α → Bool) :
    ∀ (l : List α) (j k : Nat) (a b : α), l.get? j = some a → l.get? k = some b →
      j ≠ k → p a = true → p b = true → 2 ≤ l.countP p := by
  intro l
  induction l with
  | nil => intro j k a b hj; simp at hj
  | cons x t ih =>
    intro j k a b hj hk hjk hpa hpb
    match j, k with
    | 0, 0 => exact absurd rfl hjk
    | 0, k2 + 1 =>
      simp at hj
      subst hj
      have hbmem : b ∈ t := List.get?_mem (by simpa [List.get?_cons_succ] using hk)
      have hpos : 0 < t.countP p := List.countP_pos_iff.mpr ⟨b, hbmem, hpb⟩
      rw [List.countP_cons, if_pos hpa]
      omega
    | j2 + 1, 0 =>
      simp at hk
      subst hk
      have hamem : a ∈ t := List.get?_mem (by simpa [List.get?_cons_succ] using hj)
      have hpos : 0 < t.countP p := List.countP_pos_iff.mpr ⟨a, hamem, hpa⟩
      rw [List.countP_cons, if_pos hpb]
      omega
    | j2 + 1, k2 + 1 =>
      have hrec := ih j2 k2 a b (by simpa [List.get?_cons_succ] using hj)
        (by simpa [List.get?_cons_succ] using hk) (by omega) hpa hpb
      rw [List.countP_cons]
      omega

theorem countP_set_congr (p : α → Bool) :
    ∀ (l : List α) (j : Nat) (a b : α), l.get? j = some a → p b = p a →
      (l.set j b).countP p = l.countP p := by
  intro l
  induction l with
  | nil => intro j a b hj; simp at hj
  | cons x t ih =>
    intro j a b hj hpb
    cases j with
    | zero =>
      simp at hj
      subst hj
      simp only [List.set]
      rw [List.countP_cons, List.countP_cons, hpb]
    | succ j2 =>
      simp only [List.set]
      rw [List.countP_cons, List.countP_cons,
        ih j2 a b (by simpa [List.get?_cons_succ] using hj) hpb]


theorem enableClock_create (c : Clk) :
    enableClock (create_clock c) = { clock := c, clock_enabled := true } := rfl

theorem listModify_of_get? (l : List α) (i : Nat) (f : α → α) (x : α)
    (h : l.get? i = some x) : listModify l i f = l.set i (f x) := by
  unfold listModify
  rw [h]

theorem createDigitalPin_clock_spec (bc : BoardController) (c : Clk)
    (port pin pupd : Nat) (io : PeripheralType)
    (hcount : countClkEntries bc c ≤ 1) :
    countClkEntries (createDigitalPin bc port pin c io pupd) c = 1
    ∧ ∀ e ∈ (createDigitalPin bc port pin c io pupd).clocks,
        e.clock = c → e.clock_enabled = true := by
  simp only [countClkEntries] at hcount ⊢
  by_cases hfound : (clockExists bc c).found = true
  · have hfound2 : (clockExistsAux bc.clocks c 0).found = true := hfound
    obtain ⟨j, hidx, hget, hpre⟩ := clockExistsAux_found c bc.clocks 0 hfound2
    have hidx2 : (clockExists bc c).index = j := by
      show (clockExistsAux bc.clocks c 0).index = j
      omega
    by_cases hstat : (clockExists bc c).status = true
    · have hstat2 : (clockExistsAux bc.clocks c 0).status = true := hstat
      rw [hstat2] at hget
      have hcl : (createDigitalPin bc port pin c io pupd).clocks = bc.clocks := by
        unfold createDigitalPin
        simp [hfound, hstat, enablePeriphLast_clocks, growPeripherals_clocks]
      rw [hcl]
      have hmem := List.get?_mem hget
      have hpos : 0 < bc.clocks.countP (fun e => e.clock == c) :=
        List.countP_pos_iff.mpr ⟨_, hmem, by simp⟩
      refine ⟨by omega, ?_⟩
      intro e he hc
      obtain ⟨n, hn⟩ := List.mem_iff_get?.mp he
      by_cases hnj : n = j
      · subst hnj
        rw [hget] at hn
        cases hn
        rfl
      · have h2 : 2 ≤ bc.clocks.countP (fun e => e.clock == c) :=
          countP_two_positions _ bc.clocks j n _ e hget hn (by omega) (by simp) (by simp [hc])
        omega
    · have hstat2 : (clockExistsAux bc.clocks c 0).status = false := by
        simp at hstat
        exact hstat
      rw [hstat2] at hget
      have hcl : (createDigitalPin bc port pin c io pupd).clocks
          = bc.clocks.set j { clock := c, clock_enabled := true } := by
        unfold createDigitalPin
        simp [hfound, hstat, enablePeriphLast_clocks, growPeripherals_clocks,
          enableClockAt_clocks, hidx2]
        rw [listModify_of_get? bc.clocks j enableClock _ hget]
        rfl
      rw [hcl]
      have hjlt : j < bc.clocks.length := by
        obtain ⟨h, _⟩ := List.get?_eq_some.mp hget
        exact h
      have hcong : (bc.clocks.set j { clock := c, clock_enabled := true }).countP
            (fun e => e.clock == c)
          = bc.clocks.countP (fun e => e.clock == c) :=
        countP_set_congr _ bc.clocks j _ _ hget (by simp)
      have hmem := List.get?_mem hget
      have hpos : 0 < bc.clocks.countP (fun e => e.clock == c) :=
        List.countP_pos_iff.mpr ⟨_, hmem, by simp⟩
      refine ⟨by omega, ?_⟩
      intro e he hc
      obtain ⟨n, hn⟩ := List.mem_iff_get?.mp he
      by_cases hnj : n = j
      · subst hnj
        rw [List.get?_set_eq_of_lt _ hjlt] at hn
        cases hn
        rfl
      · rw [List.get?_set_ne _ _ (Ne.symm hnj)] at hn
        have h2 : 2 ≤ bc.clocks.countP (fun e => e.clock == c) :=
          countP_two_positions _ bc.clocks j n _ e hget hn (by omega) (by simp) (by simp [hc])
        omega
  · have hfound2 : (clockExistsAux bc.clocks c 0).found = false := by
      simp at hfound
      exact hfound
    have hnone := clockExistsAux_not_found c bc.clocks 0 hfound2
    have hcl : (createDigitalPin bc port pin c io pupd).clocks
        = bc.clocks ++ [{ clock := c, clock_enabled := true }] := by
      unfold createDigitalPin
      simp [hfound, enablePeriphLast_clocks, growPeripherals_clocks,
        enableClockAt_clocks, growClocks_clocks]
      rw [listModify_append_last, enableClock_create]
    rw [hcl]
    have hzero : bc.clocks.countP (fun e => e.clock == c) = 0 := by
      rw [List.countP_eq_zero]
      intro e he
      simp [hnone e he]
    constructor
    · rw [List.countP_append, hzero]
      simp
    · intro e he hc
      rcases List.mem_append.mp he with h1 | h1
      · exact absurd hc (hnone e h1)
      · simp at h1
        rw [h1]


/-- C7 (amended): each clockExists-guarded creation block keeps the clock
table consistent: starting from a board with at most one table entry for a
clock id, creating two digital pins that share that clock leaves exactly
one table entry for the id, and that entry is enabled. The block appends
a fresh entry and enables it when the lookup found nothing, enables a
found-but-disabled entry in place, and leaves a found-enabled entry alone.
The original claim (no duplicate entry is ever appended for an existing
clock) is refuted separately for createUART, which snapshots its three
lookups before appending. -/
theorem clock_protocol (bc : BoardController) (c : Clk)
    (port1 pin1 port2 pin2 pu1 pu2 : Nat) (io1 io2 : PeripheralType)
    (hcount : countClkEntries bc c ≤ 1) :
    countClkEntries
        (createDigitalPin (createDigitalPin bc port1 pin1 c io1 pu1) port2 pin2 c io2 pu2) c = 1
    ∧ ∀ e ∈ (createDigitalPin (createDigitalPin bc port1 pin1 c io1 pu1)
          port2 pin2 c io2 pu2).clocks,
        e.clock = c → e.clock_enabled = true := by
  obtain ⟨h1, _⟩ := createDigitalPin_clock_spec bc c port1 pin1 pu1 io1 hcount
  exact createDigitalPin_clock_spec _ c port2 pin2 pu2 io2 (by omega)

/-- Witness: on the fresh board, an output pin A05 and an input pin A03
sharing the GPIOA clock leave exactly one enabled GPIOA clock entry. -/
theorem clock_protocol_witness :
    countClkEntries initBoard Clk.RCC_GPIOA ≤ 1
    ∧ (countClkEntries
          (createDigitalPin (createDigitalPin initBoard GPIOA 32 Clk.RCC_GPIOA
            PeripheralType.TYPE_GPIO_OUTPUT 0) GPIOA 8 Clk.RCC_GPIOA
            PeripheralType.TYPE_GPIO_INPUT 0) Clk.RCC_GPIOA = 1
      ∧ ∀ e ∈ (createDigitalPin (createDigitalPin initBoard GPIOA 32 Clk.RCC_GPIOA
            PeripheralType.TYPE_GPIO_OUTPUT 0) GPIOA 8 Clk.RCC_GPIOA
            PeripheralType.TYPE_GPIO_INPUT 0).clocks,
          e.clock = Clk.RCC_GPIOA → e.clock_enabled = true) :=
  ⟨by decide, clock_protocol initBoard Clk.RCC_GPIOA GPIOA 32 GPIOA 8 0 0
    PeripheralType.TYPE_GPIO_OUTPUT PeripheralType.TYPE_GPIO_INPUT (by decide)⟩

end NiTTY
